import Mathlib

/-!
Verification development for the zbeng scraper (`src/scraper/scrap_zbeng.py`).

The Python source is shallowly embedded: Python strings are Lean `String`s
(operated on through their `List Char` data), Python regular expressions are
translated to explicit scanning functions with the same matching semantics
(anchored / leftmost-search, greedy digit runs), Python `None`-able values are
`Option`s, Python dictionaries that the code builds with a fixed key set are
Lean structures, and exceptions that can escape a function are `Except`.
External collaborators (the HTTP session, `BeautifulSoup`'s HTML parser, the
filesystem) are abstract parameters or explicit state, as described at each
definition.
-/

set_option maxRecDepth 4000

namespace Zbeng

/-! ## Basic Python string-operation models -/

/-- Whitespace test used to model both Python's `str.strip()` and the regex
class `\s` (the inputs at hand only contain ASCII whitespace). -/
def isWS (c : Char) : Bool := c.isWhitespace

/-- Model of Python `str.strip()` on the character list: drop whitespace from
both ends. -/
def stripChars (cs : List Char) : List Char :=
  ((cs.dropWhile isWS).reverse.dropWhile isWS).reverse

/-- Model of Python `str.strip()`. -/
def pyStrip (s : String) : String := ⟨stripChars s.data⟩

/-- Model of Python `str.split(sep)` for a one-character separator: split on
every occurrence, keeping empty segments; the empty string yields `[""]`. -/
def splitOnChar (sep : Char) : List Char → List (List Char)
  | [] => [[]]
  | c :: cs =>
    let r := splitOnChar sep cs
    if c = sep then [] :: r
    else
      match r with
      | [] => [[c]]
      | h :: t => (c :: h) :: t

/-- Substring containment on character lists (Python's `pat in s`). -/
def containsSub (pat : List Char) : List Char → Bool
  | [] => pat.isEmpty
  | c :: cs => pat.isPrefixOf (c :: cs) || containsSub pat cs

/-- Python `pat in s` on strings. -/
def strContains (s pat : String) : Bool := containsSub pat.data s.data

/-- Model of Python `str.lower()` (ASCII case folding; the strings this is
applied to in the source—URLs and content types—are ASCII). -/
def pyLower (s : String) : String := ⟨s.data.map Char.toLower⟩

/-- Numeric value of an ASCII digit run, modelling Python `int(...)` applied
to the all-digit match group of a regex. -/
def digitsToNat (ds : List Char) : Nat :=
  ds.foldl (fun a c => a * 10 + (c.toNat - '0'.toNat)) 0

/-! ## Field parsers (`scrap_zbeng.py` lines 158–230) -/

/-- One alternative of the regex fragment `(<w>)\s*(\d+)` anchored at the
start of `cs`: the word as a prefix, then zero-or-more whitespace, then a
greedy nonempty digit run.  Returns the matched word, the digit run, and the
remainder after the match end. -/
def tryGenderAgeWord (g cs : List Char) :
    Option (List Char × List Char × List Char) :=
  if g.isPrefixOf cs then
    let r1 := (cs.drop g.length).dropWhile isWS
    let ds := r1.takeWhile Char.isDigit
    if ds.isEmpty then none else some (g, ds, r1.drop ds.length)
  else none

/-- The anchored regex fragment `(<w1>|<w2>|...)\s*(\d+)`: try each
alternative word in regex alternation order, with backtracking to the next
alternative when the digit part fails. -/
def tryGenderAge (gs : List (List Char)) (cs : List Char) :
    Option (List Char × List Char × List Char) :=
  gs.findSome? (fun g => tryGenderAgeWord g cs)

/-- `re.search` of the same fragment: leftmost match, scanning positions from
the left. -/
def searchGenderAge (gs : List (List Char)) : List Char →
    Option (List Char × List Char × List Char)
  | [] => none
  | c :: cs =>
    match tryGenderAge gs (c :: cs) with
    | some r => some r
    | none => searchGenderAge gs cs

/-- The marital-status tokens of `parse_detailed_gender_age_location`, in
source order (line 170). -/
def maritalOptionList : List String :=
  ["רווק", "רווקה", "נשוי", "נשואה", "גרוש", "גרושה", "אלמן", "אלמנה",
   "במערכת יחסים", "פנוי", "פנויה"]

/-- `parse_detailed_gender_age_location` (lines 158–197): strip a leading
marital token (first `startswith` match in list order wins), search anywhere
for `(בן|בת)\s*(\d+)`, and treat the remaining text as the location after an
optional leading `מ` (from-marker).  Returns
`(marital_status_he, gender_he, age_num, location_he)`. -/
def parse_detailed_gender_age_location (text : String) :
    Option String × Option String × Option Nat × Option String :=
  if text = "" then (none, none, none, none)
  else
    let cs0 := text.data
    let step1 : Option String × List Char :=
      match maritalOptionList.find? (fun o => o.data.isPrefixOf cs0) with
      | some m => (some m, stripChars (cs0.drop m.data.length))
      | none => (none, cs0)
    let step2 : Option String × Option Nat × List Char :=
      match searchGenderAge ["בן".data, "בת".data] step1.2 with
      | some (g, ds, rest) => (some ⟨g⟩, some (digitsToNat ds), stripChars rest)
      | none => (none, none, step1.2)
    let location : Option String :=
      match step2.2.2 with
      | 'מ' :: rest => some ⟨stripChars rest⟩
      | [] => none
      | cs => some ⟨stripChars cs⟩
    (step1.1, step2.1, step2.2.1, location)

/-- `parse_gender_age_location_simple` (lines 200–230): split on commas, take
the second segment (stripped) as the location when present, and match the
anchored `(בת|בן|זוג)\s*(\d+)` against the stripped first segment for gender
and age.  Note the source assigns `location` before the gender/age match is
attempted, so a failed match leaves the location populated. -/
def parse_gender_age_location_simple (text : String) :
    Option String × Option Nat × Option String :=
  let parts := splitOnChar ',' text.data
  let first := stripChars (parts.headD [])
  let location : Option String :=
    match parts with
    | _ :: p1 :: _ => some ⟨stripChars p1⟩
    | _ => none
  match tryGenderAge ["בת".data, "בן".data, "זוג".data] first with
  | some (g, ds, _) =>
    let gender : Option String :=
      if g = "בת".data then some "female"
      else if g = "בן".data then some "male"
      else some "couple"
    (gender, some (digitsToNat ds), location)
  | none => (none, none, location)

/-! ## More string-operation models -/

/-- Model of Python `str.replace(old, new)` with a nonempty `old`:
non-overlapping left-to-right replacement of every occurrence.  (The source
only calls `replace` with nonempty patterns; an empty pattern is returned
untouched here so the recursion is well founded.) -/
def pyReplaceChars (pat rep : List Char) : List Char → List Char
  | [] => []
  | c :: cs =>
    if h : pat.isPrefixOf (c :: cs) ∧ pat ≠ [] then
      rep ++ pyReplaceChars pat rep ((c :: cs).drop pat.length)
    else
      c :: pyReplaceChars pat rep cs
termination_by cs => cs.length
decreasing_by
  · simp only [List.length_drop]
    have hp : 1 ≤ pat.length := by
      cases hpat : pat with
      | nil => exact absurd hpat h.2
      | cons a l => simp
    simp only [List.length_cons]
    omega
  · simp

mutual
/-- Model of `re.sub(r'\s+', ' ', ·)`: each maximal whitespace run becomes a
single space. -/
def collapseWs : List Char → List Char
  | [] => []
  | c :: cs => if isWS c then ' ' :: collapseWsSkip cs else c :: collapseWs cs

/-- Helper for `collapseWs`: currently inside a whitespace run. -/
def collapseWsSkip : List Char → List Char
  | [] => []
  | c :: cs => if isWS c then collapseWsSkip cs else c :: collapseWs cs
end

/-- No two adjacent whitespace characters (specification predicate for
whitespace collapsing). -/
def noAdjWs : List Char → Bool
  | [] => true
  | [_] => true
  | a :: b :: t => !(isWS a && isWS b) && noAdjWs (b :: t)

/-- Every whitespace character is a plain space (specification predicate for
whitespace collapsing). -/
def allWsSpace (l : List Char) : Bool := l.all (fun c => !isWS c || c = ' ')

/-- Whitespace-separated words of a string (used to model BeautifulSoup's
class matching, where the `class` attribute is a whitespace-separated list). -/
def wsWords : List Char → List (List Char)
  | [] => []
  | c :: cs =>
    if isWS c then wsWords cs
    else (c :: cs.takeWhile (fun d => !isWS d)) :: wsWords (cs.dropWhile (fun d => !isWS d))
termination_by cs => cs.length
decreasing_by
  · simp
  · have := (List.dropWhile_sublist (l := cs) (fun d => !isWS d)).length_le
    simp only [List.length_cons]
    omega

/-- Leftmost occurrence of `pat` immediately followed by a nonempty digit run,
returning the digit run: the model of `re.search(pat + r"(\d+)", s)` for a
literal `pat` (used for `number=(\d+)` and `page=(\d+)`). -/
def searchPatDigits (pat : List Char) : List Char → Option (List Char)
  | [] => none
  | c :: cs =>
    (if pat.isPrefixOf (c :: cs) then
      let r := (c :: cs).drop pat.length
      let ds := r.takeWhile Char.isDigit
      if ds.isEmpty then none else some ds
    else none) <|> searchPatDigits pat cs

/-- The anchored match of `showProfil\((\d+)\)` at the start of `cs`: the
literal prefix, then a greedy nonempty digit run, then the closing
parenthesis. -/
def showProfilAt (cs : List Char) : Option (List Char) :=
  if "showProfil(".data.isPrefixOf cs then
    if ((cs.drop "showProfil(".length).takeWhile Char.isDigit).isEmpty then none
    else if ((cs.drop "showProfil(".length).dropWhile Char.isDigit).head? = some ')' then
      some ((cs.drop "showProfil(".length).takeWhile Char.isDigit)
    else none
  else none

/-- Leftmost-match scan for `showProfilAt`. -/
def searchShowProfilChars : List Char → Option (List Char)
  | [] => none
  | c :: cs =>
    match showProfilAt (c :: cs) with
    | some ds => some ds
    | none => searchShowProfilChars cs

/-- Leftmost occurrence of `showProfil(<digits>)`, returning the digits: the
model of `re.search(r"showProfil\((\d+)\)", s)` (the greedy digit run must be
followed by the closing parenthesis). -/
def searchShowProfil (s : String) : Option String :=
  (searchShowProfilChars s.data).map (fun ds => ⟨ds⟩)

/-! ## HTML document model

`BeautifulSoup` is an external collaborator: it turns any string into a
document tree without failing.  The tree is modelled as `Html`; wherever the
source parses a string with `BeautifulSoup(...)`, the embedding applies an
abstract parameter `hp : String → Html`. -/

/-- An HTML node: a text node, or an element with a tag name, attributes and
children. -/
inductive Html where
  | text : String → Html
  | elem : String → List (String × String) → List Html → Html

/-- Attribute lookup (`tag.get(name)` / `tag[name]`). -/
def Html.attr? (h : Html) (name : String) : Option String :=
  match h with
  | .text _ => none
  | .elem _ attrs _ => (attrs.find? (fun p => p.1 = name)).map (·.2)

/-- Tag-name test. -/
def Html.isTag (h : Html) (t : String) : Bool :=
  match h with
  | .text _ => false
  | .elem tg _ _ => tg = t

/-- BeautifulSoup class matching: the `class` attribute, split on whitespace,
contains the requested class. -/
def Html.hasClass (h : Html) (c : String) : Bool :=
  match h.attr? "class" with
  | some v => (wsWords v.data).contains c.data
  | none => false

mutual
/-- All descendants of a node in document (pre-)order, not including the node
itself — the search space of BeautifulSoup's `find` / `find_all` / `select`
on that node. -/
def Html.descendants : Html → List Html
  | .text _ => []
  | .elem _ _ cs => Html.descList cs

/-- Descendants of a forest, in document order. -/
def Html.descList : List Html → List Html
  | [] => []
  | h :: t => h :: (Html.descendants h ++ Html.descList t)
end

mutual
/-- Concatenation of all text-node strings below a node: BeautifulSoup's
`.text` / `get_text()` with no arguments. -/
def Html.allText : Html → String
  | .text s => s
  | .elem _ _ cs => Html.allTextList cs

/-- `allText` over a forest. -/
def Html.allTextList : List Html → String
  | [] => ""
  | h :: t => Html.allText h ++ Html.allTextList t
end

mutual
/-- The raw text-node strings below a node, in document order. -/
def Html.strings : Html → List String
  | .text s => [s]
  | .elem _ _ cs => Html.stringsList cs

/-- `strings` over a forest. -/
def Html.stringsList : List Html → List String
  | [] => []
  | h :: t => Html.strings h ++ Html.stringsList t
end

/-- BeautifulSoup `get_text(separator=' ', strip=True)`: strip every text
node, drop the ones that become empty, and join with single spaces. -/
def getTextStripSep (h : Html) : String :=
  String.intercalate " " ((h.strings.map pyStrip).filter (fun s => s ≠ ""))

/-! ## URL constants and `urljoin` model -/

def BASE_URL : String := "https://www.zbeng.co.il"

/-- The details endpoint for one record
(`USER_DETAILS_AJAX_URL_TEMPLATE.format(user_id=...)`). -/
def user_details_url (uid : String) : String :=
  "https://www.zbeng.co.il/api/getprofile?customerId=" ++ uid

/-- Model of `urllib.parse.urljoin` for the URL shapes this program produces:
an absolute `http(s)` reference wins outright; a root-relative reference is
resolved against the base's scheme+authority; otherwise the reference is
resolved against the base's directory (the base path up to its last `/`, with
any query discarded, defaulting to `/` when the base has an empty path).
Exotic cases (`..` segments, scheme-relative references, empty references) do
not occur in this program and are not modelled. -/
def urljoinModel (base rel : String) : String :=
  if "http://".data.isPrefixOf rel.data || "https://".data.isPrefixOf rel.data then rel
  else
    let afterScheme : List Char :=
      if "https://".data.isPrefixOf base.data then base.data.drop 8
      else if "http://".data.isPrefixOf base.data then base.data.drop 7
      else base.data
    let schemePart : List Char := base.data.take (base.data.length - afterScheme.length)
    let authority : List Char := afterScheme.takeWhile (fun c => c ≠ '/')
    let path : List Char := afterScheme.drop authority.length
    match rel.data with
    | '/' :: _ => ⟨schemePart ++ authority ++ rel.data⟩
    | _ =>
      let pathNoQuery := path.takeWhile (fun c => c ≠ '?')
      let dir := (pathNoQuery.reverse.dropWhile (fun c => c ≠ '/')).reverse
      let dir := if dir.isEmpty then ['/'] else dir
      ⟨schemePart ++ authority ++ dir ++ rel.data⟩

/-- Python `str.lstrip('/')`. -/
def lstripSlash (s : String) : String := ⟨s.data.dropWhile (fun c => c = '/')⟩

/-! ## Listing extractor (`parse_users_from_listing`, lines 247–334) -/

/-- One record summary from a listing page (the per-user dict built at lines
304–307). -/
structure Summary where
  user_id : String
  nickname_listing : Option String
  photo_url_listing : Option String
  gender_listing : Option String
  age_listing : Option Nat
  location_listing : Option String
deriving DecidableEq, Repr

/-- User-id extraction from the container's own `onclick` attribute
(lines 261–263; an empty attribute value is falsy and skipped). -/
def extract_user_id_own (c : Html) : Option String :=
  (c.attr? "onclick").bind (fun oc => if oc = "" then none else searchShowProfil oc)

/-- Fallback user-id extraction (lines 265–269): the first descendant whose
`onclick` matches the `showProfil` pattern. -/
def extract_user_id_fallback (c : Html) : Option String :=
  (c.descendants.find?
    (fun e => match e.attr? "onclick" with
              | some oc => (searchShowProfil oc).isSome
              | none => false)).bind
    (fun e => (e.attr? "onclick").bind searchShowProfil)

/-- User-id extraction for one `div.adv` container (lines 260–269): search
`showProfil\((\d+)\)` in the container's own `onclick`, falling back to the
first descendant whose `onclick` matches the pattern. -/
def extract_user_id (c : Html) : Option String :=
  match extract_user_id_own c with
  | some uid => some uid
  | none => extract_user_id_fallback c

/-- The synthesized listing photo URL from the fixed template
(`picture.ashx?customerId=<id>&number=1`, lines 289/291). -/
def synthesized_photo_url (uid : String) : String :=
  urljoinModel (BASE_URL ++ "/") ("picture.ashx?customerId=" ++ uid ++ "&number=1")

/-- The `img` element used for the listing photo: the first descendant `img`
whose `id` attribute matches `re.compile(r"imgCustomer_")` (line 275). -/
def find_listing_img (c : Html) : Option Html :=
  c.descendants.find?
    (fun e => e.isTag "img" &&
      (match e.attr? "id" with
       | some i => containsSub "imgCustomer_".data i.data
       | none => false))

/-- The `src`-dependent part of listing photo resolution (lines 276–289):
an empty source is falsy and falls back to the template; a source carrying
the record's own `customerId` (or none at all) is resolved and normalized to
carry `customerId` and `number` parameters; a source carrying a *different*
`customerId` is discarded in favour of the template. -/
def listing_photo_from_src (uid src : String) : String :=
  if src = "" then synthesized_photo_url uid
  else if strContains src ("customerId=" ++ uid) || !strContains src "customerId=" then
    let full := urljoinModel (BASE_URL ++ "/") (lstripSlash src)
    if !strContains full "customerId=" then
      full ++ (if strContains full "?" then "&" else "?") ++
        "customerId=" ++ uid ++ "&number=1"
    else if !strContains full "number=" then full ++ "&number=1"
    else full
  else synthesized_photo_url uid

/-- Listing photo URL resolution for one container (lines 275–292).  Always
produces a URL: an explicit usable `img` source is normalized to carry
`customerId` and `number` parameters, and every other case falls back to the
fixed template. -/
def listing_photo_url (c : Html) (uid : String) : String :=
  match find_listing_img c with
  | some img =>
    (match img.attr? "src" with
     | some src => listing_photo_from_src uid src
     | none => synthesized_photo_url uid)
  | none => synthesized_photo_url uid

/-- The summary record built for a container whose user id was extracted
(lines 294–307). -/
def summary_of (c : Html) (uid : String) : Summary :=
  let inf1 := c.descendants.find? (fun e => e.isTag "div" && e.hasClass "inf1")
  let gal : Option String × Option Nat × Option String :=
    match inf1 with
    | some d =>
      if d.allText = "" then (none, none, none)
      else parse_gender_age_location_simple (pyStrip d.allText)
    | none => (none, none, none)
  let nickname : Option String :=
    match c.descendants.find?
        (fun e => e.isTag "p" &&
          (match e.attr? "id" with
           | some i => containsSub "lblNickName_".data i.data
           | none => false)) with
    | some p => some (pyStrip p.allText)
    | none => none
  { user_id := uid
    nickname_listing := nickname
    photo_url_listing := some (listing_photo_url c uid)
    gender_listing := gal.1
    age_listing := gal.2.1
    location_listing := gal.2.2 }

/-- Summary extraction for one container (loop body, lines 257–307):
`none` exactly when no user id can be extracted (the source logs a warning
and `continue`s, emitting nothing for that container). -/
def extract_summary (c : Html) : Option Summary :=
  (extract_user_id c).map (summary_of c)

/-- The `div.adv` containers of a page (line 253). -/
def adv_containers (doc : Html) : List Html :=
  doc.descendants.filter (fun e => e.isTag "div" && e.hasClass "adv")

/-- Max-page detection from the pager (lines 309–330): prefer the numeric
labels of the dedicated pager links; if that yields nothing, scan `page=`
query parameters of links under any `div` whose id contains `pager`. -/
def max_page_from_pager (doc : Html) : Nat :=
  let pagerLinks := doc.descendants.filter
    (fun e => e.isTag "a" &&
      (match e.attr? "id" with
       | some i => containsSub "contentMain_customers_pager_rptPager_lnkPage_".data i.data
       | none => false))
  let m1 := pagerLinks.foldl
    (fun acc l =>
      let t := pyStrip l.allText
      if t ≠ "" ∧ t.data.all Char.isDigit then max acc (digitsToNat t.data) else acc) 0
  if m1 ≠ 0 then m1
  else
    let pagerDivs := doc.descendants.filter
      (fun e => e.isTag "div" &&
        (match e.attr? "id" with
         | some i => containsSub "pager".data i.data
         | none => false))
    let links := pagerDivs.flatMap (fun d => d.descendants.filter
      (fun e => e.isTag "a" &&
        (match e.attr? "href" with
         | some hr => containsSub "page=".data hr.data
         | none => false)))
    links.foldl
      (fun acc l =>
        match l.attr? "href" with
        | some hr =>
          match searchPatDigits "page=".data hr.data with
          | some ds => max acc (digitsToNat ds)
          | none => acc
        | none => acc) 0

/-- `parse_users_from_listing` (lines 247–334): the summaries of all `div.adv`
containers that yield a user id, plus the detected max page number. -/
def parse_users_from_listing (doc : Html) : List Summary × Nat :=
  ((adv_containers doc).filterMap extract_summary, max_page_from_pager doc)

/-! ## JSON values and a model of `json.loads`

`json.loads` is the Python standard library's strict JSON decoder.  It is
modelled by `jsonLoadsModel` below: a recursive-descent parser over the
payload characters that accepts exactly well-formed JSON documents (within
the fragment exercised here: floats, `NaN`/`Infinity` and `\uXXXX` string
escapes are not modelled — none of the statements below feed such payloads
to it). -/

/-- A decoded JSON value (Python numbers restricted to integers). -/
inductive Json where
  | null : Json
  | bool : Bool → Json
  | num : Int → Json
  | str : String → Json
  | arr : List Json → Json
  | obj : List (String × Json) → Json

/-- JSON whitespace. -/
def jsonWS (c : Char) : Bool := c = ' ' || c = '\t' || c = '\n' || c = '\r'

/-- String-body scanner for the JSON decoder model: characters up to the
closing quote, with the escapes `\" \\ \/ \n \t \r \b \f` (a `\uXXXX` escape
or an unescaped control character makes the parse fail). -/
def parseJStr : List Char → List Char → Option (List Char × List Char)
  | [], _ => none
  | '"' :: r, acc => some (acc.reverse, r)
  | '\\' :: e :: r, acc =>
    if e = '"' ∨ e = '\\' ∨ e = '/' then parseJStr r (e :: acc)
    else if e = 'n' then parseJStr r ('\n' :: acc)
    else if e = 't' then parseJStr r ('\t' :: acc)
    else if e = 'r' then parseJStr r ('\r' :: acc)
    else if e = 'b' then parseJStr r ('\x08' :: acc)
    else if e = 'f' then parseJStr r ('\x0c' :: acc)
    else none
  | c :: r, acc => if c.toNat < 32 then none else parseJStr r (c :: acc)

/-- JSON integer scanner starting at a digit run `ds` with remainder `r`:
rejects leading zeros and anything float-shaped. -/
def parseJNum (ds r : List Char) : Option (Nat × List Char) :=
  if ds.isEmpty then none
  else if ds.length > 1 ∧ ds.head? = some '0' then none
  else if r.head? = some '.' ∨ r.head? = some 'e' ∨ r.head? = some 'E' then none
  else some (digitsToNat ds, r)

mutual
/-- One JSON value (fuel-indexed recursive descent). -/
def parseJVal : Nat → List Char → Option (Json × List Char)
  | 0, _ => none
  | fuel + 1, cs =>
    match cs.dropWhile jsonWS with
    | [] => none
    | c :: rest =>
      if c = 'n' then
        if "ull".data.isPrefixOf rest then some (.null, rest.drop 3) else none
      else if c = 't' then
        if "rue".data.isPrefixOf rest then some (.bool true, rest.drop 3) else none
      else if c = 'f' then
        if "alse".data.isPrefixOf rest then some (.bool false, rest.drop 4) else none
      else if c = '"' then
        (parseJStr rest []).map (fun p => (.str ⟨p.1⟩, p.2))
      else if c = '-' then
        (parseJNum (rest.takeWhile Char.isDigit) (rest.dropWhile Char.isDigit)).map
          (fun p => (.num (-(p.1 : Int)), p.2))
      else if c.isDigit then
        (parseJNum ((c :: rest).takeWhile Char.isDigit)
            ((c :: rest).dropWhile Char.isDigit)).map
          (fun p => (.num (p.1 : Int), p.2))
      else if c = '[' then
        match rest.dropWhile jsonWS with
        | ']' :: r => some (.arr [], r)
        | cs' =>
          (parseJVal fuel cs').bind fun p =>
            (parseJArrRest fuel p.2).map fun q => (.arr (p.1 :: q.1), q.2)
      else if c = '{' then
        match rest.dropWhile jsonWS with
        | '}' :: r => some (.obj [], r)
        | '"' :: cs' =>
          (parseJMember fuel cs').bind fun p =>
            (parseJObjRest fuel p.2).map fun q => (.obj (p.1 :: q.1), q.2)
        | _ => none
      else none

/-- The elements of an array after the first (`, value` repeated, then `]`). -/
def parseJArrRest : Nat → List Char → Option (List Json × List Char)
  | 0, _ => none
  | fuel + 1, cs =>
    match cs.dropWhile jsonWS with
    | ']' :: r => some ([], r)
    | ',' :: r =>
      (parseJVal fuel r).bind fun p =>
        (parseJArrRest fuel p.2).map fun q => (p.1 :: q.1, q.2)
    | _ => none

/-- One object member, starting right after the opening quote of its key. -/
def parseJMember : Nat → List Char → Option ((String × Json) × List Char)
  | 0, _ => none
  | fuel + 1, cs =>
    (parseJStr cs []).bind fun k =>
      match k.2.dropWhile jsonWS with
      | ':' :: r => (parseJVal fuel r).map fun p => ((⟨k.1⟩, p.1), p.2)
      | _ => none

/-- The members of an object after the first (`, "key": value` repeated,
then `}`). -/
def parseJObjRest : Nat → List Char → Option (List (String × Json) × List Char)
  | 0, _ => none
  | fuel + 1, cs =>
    match cs.dropWhile jsonWS with
    | '}' :: r => some ([], r)
    | ',' :: r =>
      match r.dropWhile jsonWS with
      | '"' :: r' =>
        (parseJMember fuel r').bind fun p =>
          (parseJObjRest fuel p.2).map fun q => (p.1 :: q.1, q.2)
      | _ => none
    | _ => none
end

/-- Model of `json.loads`: parse one value and require only whitespace after
it; any failure (i.e. a `json.JSONDecodeError`) is `none`. -/
def jsonLoadsModel (s : String) : Option Json :=
  match parseJVal (4 * s.length + 4) s.data with
  | some (v, r) => if r.dropWhile jsonWS = [] then some v else none
  | none => none

/-- Python `dict.get(key)` on a decoded JSON object: the last binding wins
(later duplicate keys overwrite earlier ones in `json.loads`).  Returns
`none` both for a missing key and for an explicit `null` value, matching
the indistinguishable `None` result in Python. -/
def jsonGet (kvs : List (String × Json)) (k : String) : Option Json :=
  match kvs.reverse.find? (fun p => p.1 = k) with
  | some (_, Json.null) => none
  | some (_, v) => some v
  | none => none

/-- Python truthiness of a decoded JSON value. -/
def Json.truthy : Json → Bool
  | .null => false
  | .bool b => b
  | .num n => n ≠ 0
  | .str s => s ≠ ""
  | .arr l => !l.isEmpty
  | .obj l => !l.isEmpty

/-- Python `str(...)` of a decoded JSON value, as applied to the counter
fields (which are numbers, strings or missing in practice; containers are
not rendered faithfully and do not occur there). -/
def pyStrOf : Json → String
  | .null => "None"
  | .bool true => "True"
  | .bool false => "False"
  | .num n => toString n
  | .str s => s
  | .arr _ => "[...]"
  | .obj _ => "\x7b...\x7d"

/-- Raw lookup (no `null` collapsing), for the `get(key, default)` calls
whose result is stored or stringified as-is. -/
def jsonGetRaw (kvs : List (String × Json)) (k : String) : Option Json :=
  (kvs.reverse.find? (fun p => p.1 = k)).map (·.2)

/-! ## Detail extractor (`fetch_and_parse_user_details` and its two parsers,
lines 337–571) -/

/-- The normalized detail record: the keys the two parsers put into their
`details` dictionary.  A missing key and a key explicitly set to `None` are
both `none`; fields the source stores without converting keep the decoded
JSON value. -/
structure Details where
  source_url_for_popup_photos : String := ""
  error : Option String := none
  description_popup : Option String := none
  nickname_popup : Option Json := none
  marital_status_popup_he : Option String := none
  gender_popup_he : Option String := none
  gender_popup_en : Option String := none
  age_popup : Option Nat := none
  location_popup_he : Option String := none
  rating_popup : Option Json := none
  registration_date_popup : Option Json := none
  last_login_popup : Option Json := none
  view_count_popup : Option String := none
  favorite_count_popup : Option String := none
  about_me_popup : Option String := none
  general_description_popup : Option Json := none
  i_am_tags_popup : List String := []
  iam_into_summary_popup : Option Json := none
  iam_looking_for_tags_popup : List String := []
  turns_me_on_tags_popup : List String := []
  photo_urls_popup : List String := []

/-- The comma-tag decoding the JSON parser applies to `iamTag`,
`iamLookingForTag` and `makesMeItTag` (lines 393–411): a truthy string is
split on every comma and each segment stripped (empty segments are kept); a
missing, null, or empty value yields the empty list. -/
def split_tag_field (raw : Option String) : List String :=
  match raw with
  | none => []
  | some s => if s = "" then [] else (splitOnChar ',' s.data).map (fun seg => ⟨stripChars seg⟩)

/-- Comma-joined serialization of tag segments (the inverse direction of
`split_tag_field`, used to state its specification). -/
def joinComma (parts : List String) : String :=
  ⟨List.intercalate [','] (parts.map String.data)⟩

/-- Fetch a field for a string operation, with Python's dynamic typing: a
falsy value (missing, null, `''`, `0`, `false`, empty container) is skipped
(`none`); a truthy string is returned; a truthy non-string raises, because
the source immediately applies `str` methods to it. -/
def getStrTruthy (kvs : List (String × Json)) (k : String) : Except String (Option String) :=
  match jsonGet kvs k with
  | none => .ok none
  | some v =>
    if v.truthy then
      match v with
      | .str s => .ok (some s)
      | _ => .error ("TypeError: string operation on field " ++ k)
    else .ok none

/-- The `aboutMe` flattening of the JSON parser (lines 366–377):
`get_text(separator=' ', strip=True)`, collapse whitespace runs to one space,
substitute newlines at the literal `<br>` and `</p><p` markers, and strip. -/
def about_me_flatten (doc : Html) : String :=
  let t1 := getTextStripSep doc
  let t2 := collapseWs t1.data
  let t3 := pyReplaceChars "<br>".data "\n".data t2
  let t4 := pyReplaceChars "</p><p".data "</p>\n<p".data t3
  ⟨stripChars t4⟩

/-- `parse_user_details_from_json` (lines 337–432).  `hp` is the abstract
BeautifulSoup parser applied to the rich-text `aboutMe` markup.  The result
is `Except` because the source can raise: every `popup_json.get` raises
`AttributeError` when the decoded payload is not an object, and the fields it
applies string methods to (`me`, `aboutMe` and the three tag fields) raise
when truthy but not strings. -/
def parse_user_details_from_json (hp : String → Html) (j : Json) (uid : String) :
    Except String Details :=
  match j with
  | .obj kvs => do
    let genderPair : Option String × Option String :=
      match jsonGet kvs "genderId" with
      | some (.num 1) => (some "male", some "בן")
      | some (.num 2) => (some "female", some "בת")
      | some (.num 3) => (some "couple", some "זוג")
      | _ => (none, none)
    let me? ← getStrTruthy kvs "me"
    let maritalAge : Option String × Option Nat :=
      match me? with
      | some s =>
        let r := parse_detailed_gender_age_location s
        (r.1, match r.2.2.1 with
              | some n => if n ≠ 0 then some n else none
              | none => none)
      | none => (none, none)
    let about? ← getStrTruthy kvs "aboutMe"
    let iam? ← getStrTruthy kvs "iamTag"
    let looking? ← getStrTruthy kvs "iamLookingForTag"
    let turns? ← getStrTruthy kvs "makesMeItTag"
    let basePhoto := "picture.ashx?customerId=" ++ uid
    let extraPhotos := ([2, 3, 4].filter
        (fun i => ((jsonGetRaw kvs ("img" ++ toString i)).getD (.bool false)).truthy)).map
      (fun i => urljoinModel BASE_URL (basePhoto ++ "&number=" ++ toString i))
    pure
      { source_url_for_popup_photos := user_details_url uid
        nickname_popup := jsonGet kvs "name"
        gender_popup_en := genderPair.1
        gender_popup_he := genderPair.2
        marital_status_popup_he := maritalAge.1
        age_popup := maritalAge.2
        about_me_popup := some (match about? with
                                | some raw => about_me_flatten (hp raw)
                                | none => "")
        general_description_popup := some ((jsonGetRaw kvs "general").getD (.str ""))
        rating_popup := some ((jsonGetRaw kvs "score").getD (.str ""))
        view_count_popup := some (pyStrOf ((jsonGetRaw kvs "viewCount").getD (.str "")))
        favorite_count_popup := some (pyStrOf ((jsonGetRaw kvs "favoritCount").getD (.str "")))
        registration_date_popup := some ((jsonGetRaw kvs "createdOn").getD (.str ""))
        last_login_popup := some ((jsonGetRaw kvs "lastLogIn").getD (.str ""))
        i_am_tags_popup := split_tag_field iam?
        iam_into_summary_popup := some ((jsonGetRaw kvs "basic").getD (.str ""))
        iam_looking_for_tags_popup := split_tag_field looking?
        turns_me_on_tags_popup := split_tag_field turns?
        photo_urls_popup := urljoinModel BASE_URL (basePhoto ++ "&number=1") :: extraPhotos }
  | _ => .error "AttributeError: decoded JSON payload is not an object"

/-- `get_safe_text` (line 64). -/
def get_safe_text (e : Option Html) : Option String :=
  e.map (fun el => pyStrip el.allText)

/-- `parse_tags_from_spans` (lines 151–155) with the default class `sel1`. -/
def parse_tags_from_spans (e : Option Html) : List String :=
  match e with
  | none => []
  | some el =>
    (el.descendants.filter (fun s => s.isTag "span" && s.hasClass "sel1")).map
      (fun s => pyStrip s.allText)

/-- `re.sub(r"customerId=\d+", "customerId=" ++ uid, ·)` (line 499): replace
every occurrence of `customerId=` followed by a nonempty digit run. -/
def subCustIdChars (uidD : List Char) : List Char → List Char
  | [] => []
  | c :: cs =>
    if "customerId=".data.isPrefixOf (c :: cs) then
      let after := (c :: cs).drop "customerId=".length
      let ds := after.takeWhile Char.isDigit
      if ds.isEmpty then c :: subCustIdChars uidD cs
      else "customerId=".data ++ uidD ++ subCustIdChars uidD (after.drop ds.length)
    else c :: subCustIdChars uidD cs
termination_by cs => cs.length
decreasing_by
  · simp
  · have hlen : "customerId=".length = 11 := by rfl
    simp only [List.length_drop, List.length_cons, hlen]
    omega
  · simp

/-- Photo-URL normalization of the HTML parser (lines 494–504): force the
owning record's `customerId` query parameter onto the URL. -/
def fix_customer_id (uid : String) (p : String) : String :=
  if strContains p ("customerId=" ++ uid) then p
  else if strContains p "customerId=" then ⟨subCustIdChars uid.data p.data⟩
  else if strContains p "?" then p ++ "&customerId=" ++ uid
  else p ++ "?customerId=" ++ uid

/-- Insertion into a `<`-sorted list of strings (code-point order, matching
Python's `sorted` on `str`). -/
def insertSorted (x : String) : List String → List String
  | [] => [x]
  | y :: ys => if x < y then x :: y :: ys else y :: insertSorted x ys

/-- Python `sorted(...)` on strings. -/
def sortStrings (l : List String) : List String := l.foldr insertSorted []

/-- `parse_user_details_from_popup_html` (lines 435–507), on the parsed
document of a nonempty payload (the empty-payload branch is handled in
`parse_user_details_from_popup_html`). -/
def parse_popup_html_doc (doc : Html) (uid : String) : Details :=
  let lblMe := doc.descendants.find?
    (fun e => e.isTag "span" && (e.attr? "id" == some "lblMe") && e.hasClass "opt")
  let meFields :
      Option String × Option String × Option String × Option Nat × Option String :=
    match lblMe with
    | some sp =>
      let r := parse_detailed_gender_age_location (pyStrip sp.allText)
      let genderEn : Option String :=
        if r.2.1 = some "בן" then some "male"
        else if r.2.1 = some "בת" then some "female"
        else if r.2.1 = some "זוג" then some "couple"
        else none
      (r.1, r.2.1, genderEn, r.2.2.1, r.2.2.2)
    | none => (none, none, none, none, none)
  let findDivQx (i : String) : Option Html :=
    doc.descendants.find?
      (fun e => e.isTag "div" && (e.attr? "id" == some i) && e.hasClass "qx")
  let aboutMe : Option String :=
    match doc.descendants.find? (fun e => e.isTag "p" && (e.attr? "id" == some "lblAboutMe")) with
    | some p => some (String.intercalate "\n" ((p.strings.map pyStrip).filter (fun t => t ≠ "")))
    | none => none
  let findP (i : String) : Option Html :=
    doc.descendants.find? (fun e => e.isTag "p" && (e.attr? "id" == some i))
  let mainImgUrl : List String :=
    match doc.descendants.find? (fun e => e.isTag "img" && (e.attr? "id" == some "imgCustomer1")) with
    | some img =>
      match img.attr? "src" with
      | some src => if src = "" then [] else [urljoinModel (user_details_url uid) src]
      | none => []
    | none => []
  let thumbDivs :=
    (doc.descendants.filter (fun e => e.isTag "div" && e.hasClass "prevpic")).flatMap
      (fun d => d.descendants.filter (fun e => e.isTag "div" && e.hasClass "col-xs-4"))
  let thumbUrls : List String := thumbDivs.filterMap fun d =>
    match d.attr? "style" with
    | some st =>
      if st ≠ "" ∧ strContains (pyLower st) "display: none" then none
      else
        match d.descendants.find? (fun e => e.isTag "img" && e.hasClass "smpic") with
        | some img =>
          match img.attr? "src" with
          | some src =>
            if src ≠ "" ∧ !strContains src "transparent1px.gif" then
              some (urljoinModel (user_details_url uid) src)
            else none
          | none => none
        | none => none
    | none =>
      match d.descendants.find? (fun e => e.isTag "img" && e.hasClass "smpic") with
      | some img =>
        match img.attr? "src" with
        | some src =>
          if src ≠ "" ∧ !strContains src "transparent1px.gif" then
            some (urljoinModel (user_details_url uid) src)
          else none
        | none => none
      | none => none
  let fixedPhotos :=
    (((mainImgUrl ++ thumbUrls).filter (fun p => p ≠ "")).map (fix_customer_id uid)).dedup
  { source_url_for_popup_photos := user_details_url uid
    nickname_popup := (get_safe_text (doc.descendants.find?
        (fun e => e.isTag "h1" && (e.attr? "id" == some "lblNickName") &&
          e.hasClass "mobUserTitle"))).map Json.str
    marital_status_popup_he := meFields.1
    gender_popup_he := meFields.2.1
    gender_popup_en := meFields.2.2.1
    age_popup := meFields.2.2.2.1
    location_popup_he := meFields.2.2.2.2
    rating_popup := (get_safe_text (findDivQx "lblScore")).map Json.str
    registration_date_popup := (get_safe_text (findDivQx "lblCreatedOn")).map Json.str
    view_count_popup := get_safe_text (findDivQx "lblViewCount")
    favorite_count_popup := get_safe_text (findDivQx "lblFavoritCount")
    last_login_popup := (get_safe_text (findDivQx "lblLastLogIn")).map Json.str
    about_me_popup := aboutMe
    general_description_popup :=
      (get_safe_text (doc.descendants.find?
        (fun e => e.isTag "span" && (e.attr? "id" == some "lblGeneral") &&
          e.hasClass "opt"))).map Json.str
    i_am_tags_popup := parse_tags_from_spans (findP "lblIamTag")
    iam_into_summary_popup := (get_safe_text (findP "lblBasic")).map Json.str
    iam_looking_for_tags_popup := parse_tags_from_spans (findP "lblIamLookingForTag")
    turns_me_on_tags_popup := parse_tags_from_spans (findP "lblMakesMeItTag")
    photo_urls_popup := sortStrings fixedPhotos }

/-- `parse_user_details_from_popup_html` including its empty-payload guard
(lines 437–440). -/
def parse_user_details_from_popup_html (hp : String → Html) (content : String)
    (uid : String) : Details :=
  if content = "" then
    { source_url_for_popup_photos := user_details_url uid
      error := some "Popup HTML was empty" }
  else parse_popup_html_doc (hp content) uid

/-- `fetch_and_parse_user_details` from the point where the payload text has
been fetched (lines 560–571): guard against an empty payload, then attempt
strict JSON decoding and dispatch on the outcome. -/
def fetch_and_parse_user_details (hp : String → Html) (payload : String)
    (uid : String) : Except String Details :=
  if payload = "" then
    .ok { error := some "Fetched popup content is empty"
          description_popup := some "Fetch error - empty content" }
  else
    match jsonLoadsModel payload with
    | some j => parse_user_details_from_json hp j uid
    | none => .ok (parse_user_details_from_popup_html hp payload uid)

/-! ## Photo resolver (`download_photo`, lines 574–674)

The filesystem is explicit state `fs : String → Option Nat` (byte size of the
file at a path, `none` when absent); the network GET for the photo is the
oracle `fetch : Option (Nat × String)` giving the downloaded byte count and
the response's `content-type` (`none` models a `RequestException`).  File
writes and deletes are assumed to succeed (the source catches and logs
`OSError`/`IOError`; those failure branches are not modelled). -/

/-- The placeholder byte-size signatures (lines 609 and 648). -/
def placeholder_sizes : List Nat := [24381, 15905, 16971]

/-- Gender-derived filename prefix (lines 586–595). -/
def photo_prefix (gender : Option String) : String :=
  if gender = some "female" then "woman"
  else if gender = some "male" then "man"
  else if gender = some "couple" then "couple"
  else "user"

/-- Extension guessed from the URL's pre-query part
(`re.search(r'\.(jpg|jpeg|png|gif|webp)$', url.split('?')[0], re.IGNORECASE)`,
lines 599–600), defaulting to `.jpg`. -/
def guess_extension (url : String) : String :=
  let pre := (pyLower ⟨url.data.takeWhile (fun c => c ≠ '?')⟩).data
  if ".jpg".data.isSuffixOf pre then ".jpg"
  else if ".jpeg".data.isSuffixOf pre then ".jpeg"
  else if ".png".data.isSuffixOf pre then ".png"
  else if ".gif".data.isSuffixOf pre then ".gif"
  else if ".webp".data.isSuffixOf pre then ".webp"
  else ".jpg"

/-- The target path without its extension (lines 581–603): gender prefix,
record id, sanitized label (`re.sub(r'[^\w-]', '', ·)`; the labels in use are
ASCII) and the `_n<ordinal>` suffix from a `number=` query parameter.
`os.path.join` is modelled with a `/` separator. -/
def photo_base_path (photos_dir photo_url user_id label : String)
    (gender : Option String) : String :=
  let numSuffix : String :=
    match searchPatDigits "number=".data photo_url.data with
    | some ds => "_n" ++ (⟨ds⟩ : String)
    | none => ""
  let safeLabel : String := ⟨label.data.filter (fun c => c.isAlphanum || c = '_' || c = '-')⟩
  photos_dir ++ "/" ++ photo_prefix gender ++ "_" ++ user_id ++ "_" ++ safeLabel ++ numSuffix

/-- The path checked for an existing file before any fetch. -/
def guessed_photo_path (photos_dir photo_url user_id label : String)
    (gender : Option String) : String :=
  photo_base_path photos_dir photo_url user_id label gender ++ guess_extension photo_url

/-- Extension reconciliation against the response content type
(lines 625–634). -/
def reconcile_extension (content_type ext : String) : String :=
  let ct := pyLower content_type
  if strContains ct "jpeg" || strContains ct "jpg" then ".jpg"
  else if strContains ct "png" then ".png"
  else if strContains ct "gif" then ".gif"
  else if strContains ct "webp" then ".webp"
  else ext

/-- Outcome of one `download_photo` call: the returned local path, whether a
network GET was performed, and the filesystem afterwards. -/
structure DlOutcome where
  result : Option String
  fetched : Bool
  fsAfter : String → Option Nat

/-- Pointwise filesystem update. -/
def fsSet (fs : String → Option Nat) (p : String) (v : Option Nat) :
    String → Option Nat :=
  fun q => if q = p then v else fs q

/-- The final target path after extension reconciliation (lines 636–638):
renamed when the content-type extension differs from the guessed one. -/
def reconciled_path (base ext file_path ct : String) : String :=
  if reconcile_extension ct ext ≠ ext then base ++ reconcile_extension ct ext else file_path

/-- The fetch-and-validate tail of `download_photo` (lines 621–667): GET the
URL, reconcile the extension (renaming the target), write the file, then
delete it and return `None` if its size is a placeholder signature or zero. -/
def download_photo_fetch (fs : String → Option Nat) (fetch : Option (Nat × String))
    (base ext file_path : String) : DlOutcome :=
  match fetch with
  | none => ⟨none, true, fs⟩
  | some (sz, ct) =>
    if sz ∈ placeholder_sizes then
      ⟨none, true,
        fsSet (fsSet fs (reconciled_path base ext file_path ct) (some sz))
          (reconciled_path base ext file_path ct) none⟩
    else if sz = 0 then
      ⟨none, true,
        fsSet (fsSet fs (reconciled_path base ext file_path ct) (some sz))
          (reconciled_path base ext file_path ct) none⟩
    else
      ⟨some (reconciled_path base ext file_path ct), true,
        fsSet fs (reconciled_path base ext file_path ct) (some sz)⟩

/-- The existing-file check of `download_photo` (lines 605–619), dispatching
on the size found at the guessed target path: a nonzero non-placeholder file
short-circuits to success, a nonzero placeholder file is deleted with no
re-fetch, and otherwise the fetch-and-validate tail runs. -/
def download_photo_existing (fs : String → Option Nat) (fetch : Option (Nat × String))
    (base ext gpath : String) : Option Nat → DlOutcome
  | some sz =>
    if sz > 0 then
      if sz ∈ placeholder_sizes then ⟨none, false, fsSet fs gpath none⟩
      else ⟨some gpath, false, fs⟩
    else download_photo_fetch fs fetch base ext gpath
  | none => download_photo_fetch fs fetch base ext gpath

/-- `download_photo` (lines 574–674). -/
def download_photo (fs : String → Option Nat) (fetch : Option (Nat × String))
    (photo_url user_id photos_dir label : String) (gender : Option String) :
    DlOutcome :=
  if photo_url = "" ∨ strContains (pyLower photo_url) "transparent1px.gif" then
    ⟨none, false, fs⟩
  else
    download_photo_existing fs fetch (photo_base_path photos_dir photo_url user_id label gender)
      (guess_extension photo_url) (guessed_photo_path photos_dir photo_url user_id label gender)
      (fs (guessed_photo_path photos_dir photo_url user_id label gender))

/-! ## Record transformer, gender derivation slice
(`convert_to_user_model`, lines 677–880)

Only the deterministic gender-related derivation is embedded (lines 686–704
together with the `details.gender` assignment at line 856 and the `isCouple`
flag at line 873); the rest of the transformer draws random values. -/

/-- `hebrew_to_english_gender` (lines 70–78).  Note the `"other"` fallback:
the function never returns a falsy value. -/
def hebrew_to_english_gender (g : String) : String :=
  if g = "בת" then "female"
  else if g = "בן" then "male"
  else if g = "זוג" then "couple"
  else "other"

/-- `hebrew_gender_to_iam` (lines 81–89). -/
def hebrew_gender_to_iam (g : String) : String :=
  if g = "בת" then "woman"
  else if g = "בן" then "man"
  else if g = "זוג" then "couple"
  else ""

/-- Python truthiness of an optional string field. -/
def truthyOptStr : Option String → Bool
  | some s => s ≠ ""
  | none => false

/-- The gender derivation of `convert_to_user_model`: from the three scraped
gender fields to `(gender_en, i_am, isCouple, details.gender)`. -/
def convert_gender_fields (gender_popup_he gender_popup_en gender_listing :
    Option String) : String × String × Bool × String :=
  let gender_he := gender_popup_he.getD ""
  let g1 := hebrew_to_english_gender gender_he
  let g2 := if g1 = "" ∧ truthyOptStr gender_popup_en then gender_popup_en.getD "" else g1
  let g3 := if g2 = "" ∧ truthyOptStr gender_listing then gender_listing.getD "" else g2
  let i1 := hebrew_gender_to_iam gender_he
  let i2 :=
    if i1 = "" ∧ g3 ≠ "" then
      (if g3 = "female" then "woman"
       else if g3 = "male" then "man"
       else if g3 = "couple" then "couple"
       else i1)
    else i1
  let isCouple := (i2 = "couple" || g3 = "couple")
  let detailsGender := if g3 ≠ "couple" then g3 else "other"
  (g3, i2, isCouple, detailsGender)

/-! ## Main-loop dedup gate (`main`, lines 1011–1073)

The per-summary body of the run loop, with its network effects reified as an
event log.  The pages of a run are flattened into one summary sequence (the
loop processes them strictly in order).  The fetch-and-parse of a record's
details and the outcome of a photo download are oracles (`fd`, `dl`): their
values never influence whether a *seen* record causes network work, which is
the property under study. -/

/-- A network effect of the loop body: one detail fetch, or one
`download_photo` call. -/
inductive Ev where
  | fetchDetail : String → Ev
  | downloadPhoto : String → String → Ev
deriving DecidableEq, Repr

/-- The record id an event is about. -/
def Ev.uidOf : Ev → String
  | .fetchDetail u => u
  | .downloadPhoto u _ => u

/-- Loop state: the `processed_user_ids` set (as a list) and the log of
network effects so far. -/
structure LoopState where
  processed : List String
  log : List Ev

/-- The saved listing-photo file of one processed summary
(`full_user_data['saved_listing_photo_file']`, set at lines 1033–1035 only
when the listing photo URL is truthy). -/
def saved_listing_file (dl : String → Option String) (s : Summary) : Option String :=
  match s.photo_url_listing with
  | some purl => if purl = "" then none else dl purl
  | none => none

/-- The listing-photo download attempt of one processed summary
(line 1034). -/
def listing_events (s : Summary) : List Ev :=
  match s.photo_url_listing with
  | some purl => if purl = "" then [] else [Ev.downloadPhoto s.user_id purl]
  | none => []

/-- The popup-photo download attempts of one processed summary (lines
1047–1069): one per popup photo URL, except one equal to the listing photo
URL whose file was already saved. -/
def popup_events (fd : String → Details) (dl : String → Option String)
    (s : Summary) : List Ev :=
  (fd s.user_id).photo_urls_popup.filterMap fun purl =>
    if some purl = s.photo_url_listing ∧ truthyOptStr (saved_listing_file dl s) then none
    else some (Ev.downloadPhoto s.user_id purl)

/-- All network effects of one processed (non-skipped) summary, in program
order: listing photo download, detail fetch, popup photo downloads. -/
def summary_events (fd : String → Details) (dl : String → Option String)
    (s : Summary) : List Ev :=
  listing_events s ++ [Ev.fetchDetail s.user_id] ++ popup_events fd dl s

/-- The body of `for user_summary in users_on_page` (lines 1011–1073):
skip on a missing id, skip on a seen id, otherwise download the listing
photo (when present), fetch the details, download the popup photos (skipping
one equal to an already-saved listing photo), and finally mark the id
processed. -/
def process_summary (fd : String → Details) (dl : String → Option String)
    (st : LoopState) (s : Summary) : LoopState :=
  if s.user_id = "" then st
  else if s.user_id ∈ st.processed then st
  else
    { processed := st.processed ++ [s.user_id]
      log := st.log ++ summary_events fd dl s }

/-- Count of detail fetches for one record id in an effect log. -/
def countFetch (uid : String) (log : List Ev) : Nat :=
  log.countP (fun e => e == Ev.fetchDetail uid)

/-- The summary loop over a whole run, started from the seen-id set built
from prior output files (`load_existing_users`, copied into
`processed_user_ids` at line 951). -/
def main_loop (fd : String → Details) (dl : String → Option String)
    (seen0 : List String) (summaries : List Summary) : LoopState :=
  summaries.foldl (process_summary fd dl) ⟨seen0, []⟩

/-! ## Supporting lemmas -/

theorem not_ws_of_digit {c : Char} (h : c.isDigit = true) : isWS c = false := by
  have h1 : ('0' ≤ c ∧ c ≤ '9') := by simpa [Char.isDigit] using h
  by_contra hw
  rw [Bool.not_eq_false] at hw
  have h2 : ((c = ' ' ∨ c = '\t') ∨ c = '\r') ∨ c = '\n' := by
    simpa [isWS, Char.isWhitespace] using hw
  have hle := h1.1
  have hge := h1.2
  rcases h2 with ((h2 | h2) | h2) | h2 <;> subst h2 <;> revert hle hge <;> decide

theorem takeWhile_append_all {p : Char → Bool} {ds rest : List Char}
    (hall : ∀ c ∈ ds, p c = true)
    (hrest : ∀ c, rest.head? = some c → p c = false) :
    (ds ++ rest).takeWhile p = ds := by
  induction ds with
  | nil =>
    cases rest with
    | nil => rfl
    | cons y r => simp [List.takeWhile_cons, hrest y rfl]
  | cons a l ih =>
    simp only [List.cons_append, List.takeWhile_cons, hall a (by simp), if_true]
    rw [ih (fun c hc => hall c (by simp [hc]))]

theorem dropWhile_append_all {p : Char → Bool} {ds rest : List Char}
    (hall : ∀ c ∈ ds, p c = true)
    (hrest : ∀ c, rest.head? = some c → p c = false) :
    (ds ++ rest).dropWhile p = rest := by
  induction ds with
  | nil =>
    cases rest with
    | nil => rfl
    | cons y r => simp [List.dropWhile_cons, hrest y rfl]
  | cons a l ih =>
    simp only [List.cons_append, List.dropWhile_cons, hall a (by simp), if_true]
    exact ih (fun c hc => hall c (by simp [hc]))

theorem dropWhile_eq_self_of_head {p : Char → Bool} {l : List Char}
    (h : ∀ c, l.head? = some c → p c = false) : l.dropWhile p = l := by
  cases l with
  | nil => rfl
  | cons a t => simp [List.dropWhile_cons, h a rfl]

theorem head_not_of_dropWhile_eq {p : Char → Bool} {l : List Char}
    (h : l.dropWhile p = l) : ∀ c, l.head? = some c → p c = false := by
  intro c hc
  cases l with
  | nil => simp at hc
  | cons a t =>
    have hac : a = c := by simpa using hc
    subst hac
    by_contra hp
    rw [Bool.not_eq_false] at hp
    rw [List.dropWhile_cons, if_pos hp] at h
    have hlen := congrArg List.length h
    have hle := (List.dropWhile_sublist (l := t) p).length_le
    simp only [List.length_cons] at hlen
    omega

theorem stripChars_length_le (l : List Char) : (stripChars l).length ≤ l.length := by
  unfold stripChars
  have h1 := (List.dropWhile_sublist (l := l) isWS).length_le
  have h2 := (List.dropWhile_sublist (l := (l.dropWhile isWS).reverse) isWS).length_le
  simp only [List.length_reverse] at *
  omega

theorem stripChars_ws_cons {c : Char} {l : List Char} (h : isWS c = true) :
    stripChars (c :: l) = stripChars l := by
  unfold stripChars
  rw [List.dropWhile_cons, if_pos h]

theorem stripChars_eq_self {l : List Char}
    (h1 : ∀ c, l.head? = some c → isWS c = false)
    (h2 : ∀ c, l.getLast? = some c → isWS c = false) : stripChars l = l := by
  unfold stripChars
  rw [dropWhile_eq_self_of_head h1]
  rw [dropWhile_eq_self_of_head (fun c hc => h2 c (by rwa [List.head?_reverse] at hc))]
  simp

/-- A string fixed by `pyStrip` has whitespace-free ends. -/
theorem strip_fix_parts {l : List Char} (h : stripChars l = l) :
    l.dropWhile isWS = l ∧ l.reverse.dropWhile isWS = l.reverse := by
  have hlen := congrArg List.length h
  have h1 := (List.dropWhile_sublist (l := l) isWS).length_le
  have h2 := (List.dropWhile_sublist (l := (l.dropWhile isWS).reverse) isWS).length_le
  unfold stripChars at hlen
  simp only [List.length_reverse] at hlen h2
  have hfrontlen : (l.dropWhile isWS).length = l.length := by omega
  have hfront : l.dropWhile isWS = l :=
    (List.dropWhile_suffix (l := l) isWS).eq_of_length hfrontlen
  refine ⟨hfront, ?_⟩
  have h' := h
  unfold stripChars at h'
  rw [hfront] at h'
  have := congrArg List.reverse h'
  simpa using this

theorem splitOnChar_no_sep {sep : Char} : ∀ {a : List Char}, sep ∉ a →
    splitOnChar sep a = [a]
  | [], _ => rfl
  | c :: cs, h => by
    have hc : ¬ c = sep := fun hh => h (by subst hh; exact List.mem_cons_self _ _)
    have ih := splitOnChar_no_sep (a := cs) (fun hm => h (List.mem_cons_of_mem _ hm))
    rw [splitOnChar]
    simp only [ih, hc, if_false]

theorem splitOnChar_append {sep : Char} : ∀ {a : List Char} (b : List Char), sep ∉ a →
    splitOnChar sep (a ++ sep :: b) = a :: splitOnChar sep b
  | [], b, _ => by
    rw [List.nil_append, splitOnChar]
    simp
  | c :: cs, b, h => by
    have hc : ¬ c = sep := fun hh => h (by subst hh; exact List.mem_cons_self _ _)
    have ih := splitOnChar_append (a := cs) b (fun hm => h (List.mem_cons_of_mem _ hm))
    rw [List.cons_append, splitOnChar]
    simp only [ih, hc, if_false]

theorem tryGenderAgeWord_shaped {g ds rest : List Char} (hds : ds ≠ [])
    (hall : ∀ c ∈ ds, c.isDigit = true)
    (hrest : ∀ c, rest.head? = some c → c.isDigit = false) :
    tryGenderAgeWord g (g ++ ' ' :: (ds ++ rest)) = some (g, ds, rest) := by
  have hpre : g.isPrefixOf (g ++ ' ' :: (ds ++ rest)) = true := by
    rw [List.isPrefixOf_iff_prefix]; exact List.prefix_append _ _
  have hdw : (' ' :: (ds ++ rest)).dropWhile isWS = ds ++ rest := by
    rw [List.dropWhile_cons, if_pos (by decide)]
    refine dropWhile_eq_self_of_head ?_
    intro c hc
    cases ds with
    | nil => exact absurd rfl hds
    | cons a t =>
      have hmem : c ∈ a :: t := by
        have hac : a = c := by simpa using hc
        simp [← hac]
      exact not_ws_of_digit (hall c hmem)
  unfold tryGenderAgeWord
  rw [if_pos hpre]
  simp only [List.drop_left, hdw, takeWhile_append_all hall hrest]
  rw [if_neg (by simpa [List.isEmpty_iff] using hds)]

theorem tryGenderAgeWord_miss {g cs : List Char} (h : g.isPrefixOf cs = false) :
    tryGenderAgeWord g cs = none := by
  unfold tryGenderAgeWord
  rw [if_neg (by simp [h])]

/-! ## Claim C2: the compact-descriptor parser -/

/-- **C2, counterexample.**  The claim states that on a malformed input whose
part before the first comma does not begin with a gender word followed by
whitespace and digits, *all three* output fields are absent.  On
`"xyz, somewhere"` the prefix `"xyz"` does not match, yet the location field
is populated with `"somewhere"`: the source assigns the location from the
text after the first comma *before* it attempts the gender/age match. -/
theorem c2_counterexample :
    parse_gender_age_location_simple "xyz, somewhere" = (none, none, some "somewhere") ∧
    (parse_gender_age_location_simple "xyz, somewhere").2.2 ≠ none := by
  constructor
  · decide
  · decide

/-- Evaluation of the simple parser on a well-formed compact descriptor,
given a successful anchored match on the first segment. -/
theorem parse_simple_shaped (g : String) (ds : List Char) (loc : String)
    (hgn : g.data ≠ [])
    (hgh : ∀ c, g.data.head? = some c → isWS c = false)
    (hgc : ',' ∉ g.data)
    (hds : ds ≠ []) (hall : ∀ c ∈ ds, c.isDigit = true)
    (hstrip : pyStrip loc = loc) (hcomma : ',' ∉ loc.data)
    (hhit : tryGenderAge ["בת".data, "בן".data, "זוג".data] (g.data ++ ' ' :: ds)
      = some (g.data, ds, [])) :
    parse_gender_age_location_simple ⟨g.data ++ ' ' :: (ds ++ ',' :: (' ' :: loc.data))⟩ =
      (if g.data = "בת".data then some "female"
       else if g.data = "בן".data then some "male" else some "couple",
       some (digitsToNat ds), some loc) := by
  have hnc1 : ',' ∉ g.data ++ ' ' :: ds := by
    intro hm
    rcases List.mem_append.1 hm with hm | hm
    · exact hgc hm
    · rcases List.mem_cons.1 hm with hm | hm
      · exact absurd hm (by decide)
      · exact absurd (hall _ hm) (by decide)
  have hnc2 : ',' ∉ ' ' :: loc.data := by
    intro hm
    rcases List.mem_cons.1 hm with hm | hm
    · exact absurd hm (by decide)
    · exact hcomma hm
  have hfs : stripChars (g.data ++ ' ' :: ds) = g.data ++ ' ' :: ds := by
    refine stripChars_eq_self ?_ ?_
    · intro c hc
      cases hgd : g.data with
      | nil => exact absurd hgd hgn
      | cons a t =>
        rw [hgd] at hc
        have hac : a = c := by simpa using hc
        refine hgh c ?_
        rw [hgd, ← hac]
        rfl
    · intro c hc
      have he1 : (g.data ++ ' ' :: ds).getLast? = (' ' :: ds).getLast? :=
        List.getLast?_append_of_ne_nil _ (by simp)
      have he2 : (' ' :: ds).getLast? = ds.getLast? := by
        have hsplitc : (' ' :: ds) = [' '] ++ ds := rfl
        rw [hsplitc]
        exact List.getLast?_append_of_ne_nil _ hds
      rw [he1, he2] at hc
      exact not_ws_of_digit (hall c (List.mem_of_mem_getLast? hc))
  have hsl : stripChars loc.data = loc.data := congrArg String.data hstrip
  have hdata : (⟨g.data ++ ' ' :: (ds ++ ',' :: (' ' :: loc.data))⟩ : String).data
      = (g.data ++ ' ' :: ds) ++ ',' :: (' ' :: loc.data) := by simp
  unfold parse_gender_age_location_simple
  rw [hdata, splitOnChar_append _ hnc1, splitOnChar_no_sep hnc2]
  simp only [List.headD_cons, hfs, hhit]
  rw [stripChars_ws_cons (by decide), hsl]

/-- **C2** (amended).  The claim as stated is false (see
`c2_counterexample`): on a malformed input the location field is still
populated from the text after the first comma.  Amended: (a) for every
well-formed compact descriptor `"<genderWord> <digits>, <location>"` whose
location contains no comma, the parser returns exactly that gender, age and
location; (b) for every input whose part before the first comma does not
begin with a gender word, whitespace and digits, the gender and age fields
are absent and no error is raised (while the location is still taken from
after the first comma when one exists). -/
theorem c2_parse_simple_amended :
    (∀ (g : String) (ds : List Char) (loc : String),
      (g = "בת" ∨ g = "בן" ∨ g = "זוג") → ds ≠ [] → (∀ c ∈ ds, c.isDigit = true) →
      pyStrip loc = loc → ',' ∉ loc.data →
      parse_gender_age_location_simple ⟨g.data ++ ' ' :: (ds ++ ',' :: (' ' :: loc.data))⟩ =
        (some (if g = "בת" then "female" else if g = "בן" then "male" else "couple"),
         some (digitsToNat ds), some loc)) ∧
    (∀ text : String,
      tryGenderAge ["בת".data, "בן".data, "זוג".data]
          (stripChars ((splitOnChar ',' text.data).headD [])) = none →
      (parse_gender_age_location_simple text).1 = none ∧
      (parse_gender_age_location_simple text).2.1 = none) := by
  constructor
  · intro g ds loc hg hds hall hstrip hcomma
    have hrestnil : ∀ c : Char, ([] : List Char).head? = some c → c.isDigit = false := by
      intro c hc; simp at hc
    rcases hg with hg | hg | hg <;> subst hg
    · have hhit : tryGenderAge ["בת".data, "בן".data, "זוג".data]
          ("בת".data ++ ' ' :: ds) = some ("בת".data, ds, []) := by
        unfold tryGenderAge
        rw [List.findSome?_cons]
        rw [show ("בת".data ++ ' ' :: ds) = "בת".data ++ ' ' :: (ds ++ []) by simp]
        rw [tryGenderAgeWord_shaped hds hall hrestnil]
      have := parse_simple_shaped "בת" ds loc (by decide) (by intro c hc; simp at hc; subst hc; decide) (by decide)
        hds hall hstrip hcomma hhit
      simpa using this
    · have hmiss1 : tryGenderAgeWord "בת".data ("בן".data ++ ' ' :: (ds ++ [])) = none := by
        refine tryGenderAgeWord_miss ?_
        simp [List.isPrefixOf]
      have hhit : tryGenderAge ["בת".data, "בן".data, "זוג".data]
          ("בן".data ++ ' ' :: ds) = some ("בן".data, ds, []) := by
        unfold tryGenderAge
        rw [show ("בן".data ++ ' ' :: ds) = "בן".data ++ ' ' :: (ds ++ []) by simp]
        rw [List.findSome?_cons, hmiss1, List.findSome?_cons]
        rw [tryGenderAgeWord_shaped hds hall hrestnil]
      have := parse_simple_shaped "בן" ds loc (by decide) (by intro c hc; simp at hc; subst hc; decide) (by decide)
        hds hall hstrip hcomma hhit
      simpa using this
    · have hmiss1 : tryGenderAgeWord "בת".data ("זוג".data ++ ' ' :: (ds ++ [])) = none := by
        refine tryGenderAgeWord_miss ?_
        simp [List.isPrefixOf]
      have hmiss2 : tryGenderAgeWord "בן".data ("זוג".data ++ ' ' :: (ds ++ [])) = none := by
        refine tryGenderAgeWord_miss ?_
        simp [List.isPrefixOf]
      have hhit : tryGenderAge ["בת".data, "בן".data, "זוג".data]
          ("זוג".data ++ ' ' :: ds) = some ("זוג".data, ds, []) := by
        unfold tryGenderAge
        rw [show ("זוג".data ++ ' ' :: ds) = "זוג".data ++ ' ' :: (ds ++ []) by simp]
        rw [List.findSome?_cons, hmiss1, List.findSome?_cons, hmiss2, List.findSome?_cons]
        rw [tryGenderAgeWord_shaped hds hall hrestnil]
      have := parse_simple_shaped "זוג" ds loc (by decide) (by intro c hc; simp at hc; subst hc; decide) (by decide)
        hds hall hstrip hcomma hhit
      simpa using this
  · intro text hmiss
    unfold parse_gender_age_location_simple
    simp only [hmiss]
    exact ⟨trivial, trivial⟩

/-- Witness for `c2_parse_simple_amended`, instantiating both conjuncts:
end-to-end scenario A (`"בת 32, נהריה"`) and a malformed input. -/
theorem c2_witness :
    parse_gender_age_location_simple "בת 32, נהריה" = (some "female", some 32, some "נהריה") ∧
    (parse_gender_age_location_simple "xyz, somewhere").1 = none := by
  constructor
  · have h := c2_parse_simple_amended.1 "בת" "32".data "נהריה" (Or.inl rfl) (by decide)
      (by decide) (by decide) (by decide)
    have heq : (⟨"בת".data ++ ' ' :: ("32".data ++ ',' :: (' ' :: "נהריה".data))⟩ : String)
        = "בת 32, נהריה" := by decide
    rw [heq] at h
    rw [h]
    decide
  · exact (c2_parse_simple_amended.2 "xyz, somewhere" (by decide)).1

/-! ## Claim C4: the verbose-descriptor parser -/

/-- **C4, counterexample.**  The claim states that a verbose descriptor built
from a known marital token recovers exactly that token, first prefix match
winning.  But the token list is not prefix-free: `"רווק"` precedes and is a
prefix of `"רווקה"`, so the descriptor built from the token `"רווקה"` is
parsed with marital status `"רווק"` — not the token it was built from. -/
theorem c4_counterexample :
    "רווקה" ∈ maritalOptionList ∧
    parse_detailed_gender_age_location "רווקה בת 25 מחיפה" =
      (some "רווק", some "בת", some 25, some "חיפה") ∧
    (parse_detailed_gender_age_location "רווקה בת 25 מחיפה").1 ≠ some "רווקה" := by
  refine ⟨by decide, by decide, by decide⟩

/-- The unanchored gender/age search hits immediately on a remainder of the
shape `<genderWord> <digits> <rest>` for either gender word. -/
theorem searchGenderAge_shaped (g : String) (ds rest : List Char)
    (hg : g = "בן" ∨ g = "בת")
    (hds : ds ≠ []) (hall : ∀ c ∈ ds, c.isDigit = true)
    (hrest : ∀ c, rest.head? = some c → c.isDigit = false) :
    searchGenderAge ["בן".data, "בת".data] (g.data ++ ' ' :: (ds ++ rest)) =
      some (g.data, ds, rest) := by
  rcases hg with hg | hg <;> subst hg
  · rw [show ("בן".data ++ ' ' :: (ds ++ rest)) = 'ב' :: ('ן' :: (' ' :: (ds ++ rest))) from rfl]
    rw [searchGenderAge]
    have hhit : tryGenderAge ["בן".data, "בת".data] ('ב' :: ('ן' :: (' ' :: (ds ++ rest))))
        = some ("בן".data, ds, rest) := by
      unfold tryGenderAge
      rw [List.findSome?_cons]
      rw [show ('ב' :: ('ן' :: (' ' :: (ds ++ rest)))) = "בן".data ++ ' ' :: (ds ++ rest) from rfl]
      rw [tryGenderAgeWord_shaped hds hall hrest]
    rw [hhit]
  · rw [show ("בת".data ++ ' ' :: (ds ++ rest)) = 'ב' :: ('ת' :: (' ' :: (ds ++ rest))) from rfl]
    rw [searchGenderAge]
    have hmiss : tryGenderAgeWord "בן".data ('ב' :: ('ת' :: (' ' :: (ds ++ rest)))) = none := by
      refine tryGenderAgeWord_miss ?_
      simp [List.isPrefixOf]
    have hhit : tryGenderAge ["בן".data, "בת".data] ('ב' :: ('ת' :: (' ' :: (ds ++ rest))))
        = some ("בת".data, ds, rest) := by
      unfold tryGenderAge
      rw [List.findSome?_cons, hmiss, List.findSome?_cons]
      rw [show ('ב' :: ('ת' :: (' ' :: (ds ++ rest)))) = "בת".data ++ ' ' :: (ds ++ rest) from rfl]
      rw [tryGenderAgeWord_shaped hds hall hrest]
    rw [hhit]

/-- **C4** (amended).  The claim as stated is false (see
`c4_counterexample`) because the marital tokens are not mutually exclusive
prefixes.  Amended: for every verbose descriptor
`"<maritalToken> <genderWord> <digits> מ<location>"` whose marital token is
not shadowed — i.e. the only listed token that is a prefix of the descriptor
is the token itself — the parser recovers exactly the four components. -/
theorem c4_parse_detailed_amended (m g : String) (ds : List Char) (loc : String)
    (hm : m ∈ maritalOptionList)
    (hnoshadow : ∀ o ∈ maritalOptionList,
      o.data.isPrefixOf (m.data ++ ' ' :: (g.data ++ ' ' :: (ds ++ ' ' :: ('מ' :: loc.data)))) = true →
      o = m)
    (hg : g = "בן" ∨ g = "בת")
    (hds : ds ≠ []) (hall : ∀ c ∈ ds, c.isDigit = true)
    (hln : loc ≠ "") (hstrip : pyStrip loc = loc) :
    parse_detailed_gender_age_location
        ⟨m.data ++ ' ' :: (g.data ++ ' ' :: (ds ++ ' ' :: ('מ' :: loc.data)))⟩ =
      (some m, some g, some (digitsToNat ds), some loc) := by
  have hsl : stripChars loc.data = loc.data := congrArg String.data hstrip
  have hlocn : loc.data ≠ [] := fun hh => hln (String.ext (hh.trans rfl))
  have hlast : ∀ c, loc.data.getLast? = some c → isWS c = false := by
    intro c hc
    have hpart := (strip_fix_parts hsl).2
    have := head_not_of_dropWhile_eq hpart c (by rwa [List.head?_reverse])
    exact this
  have htext : (⟨m.data ++ ' ' :: (g.data ++ ' ' :: (ds ++ ' ' :: ('מ' :: loc.data)))⟩ : String)
      ≠ "" := by
    intro hh
    have := congrArg String.data hh
    simp at this
  have hfind : maritalOptionList.find?
      (fun o => o.data.isPrefixOf
        (m.data ++ ' ' :: (g.data ++ ' ' :: (ds ++ ' ' :: ('מ' :: loc.data))))) = some m := by
    rcases hsome : maritalOptionList.find?
        (fun o => o.data.isPrefixOf
          (m.data ++ ' ' :: (g.data ++ ' ' :: (ds ++ ' ' :: ('מ' :: loc.data))))) with _ | y
    · exfalso
      have hpm : m.data.isPrefixOf
          (m.data ++ ' ' :: (g.data ++ ' ' :: (ds ++ ' ' :: ('מ' :: loc.data)))) = true := by
        simp only [List.isPrefixOf_iff_prefix]
        exact List.prefix_append _ _
      exact List.find?_eq_none.1 hsome m hm hpm
    · have hy := List.find?_some hsome
      have hmem := List.mem_of_find?_eq_some hsome
      rw [hsome, hnoshadow y hmem hy]
  have hmid : stripChars (' ' :: (g.data ++ ' ' :: (ds ++ ' ' :: ('מ' :: loc.data))))
      = g.data ++ ' ' :: (ds ++ ' ' :: ('מ' :: loc.data)) := by
    rw [stripChars_ws_cons (by decide)]
    refine stripChars_eq_self ?_ ?_
    · intro c hc
      rcases hg with hg | hg
      · subst hg
        have hac : 'ב' = c := by simpa using hc
        subst hac
        decide
      · subst hg
        have hac : 'ב' = c := by simpa using hc
        subst hac
        decide
    · intro c hc
      have he1 : (g.data ++ ' ' :: (ds ++ ' ' :: ('מ' :: loc.data))).getLast?
          = (' ' :: (ds ++ ' ' :: ('מ' :: loc.data))).getLast? :=
        List.getLast?_append_of_ne_nil _ (by simp)
      have he2 : (' ' :: (ds ++ ' ' :: ('מ' :: loc.data))).getLast?
          = ('מ' :: loc.data).getLast? := by
        rw [show (' ' :: (ds ++ ' ' :: ('מ' :: loc.data)))
            = ((' ' :: ds) ++ ' ' :: []) ++ ('מ' :: loc.data) from by simp]
        exact List.getLast?_append_of_ne_nil _ (by simp)
      have he3 : ('מ' :: loc.data).getLast? = loc.data.getLast? := by
        rw [show ('מ' :: loc.data) = ['מ'] ++ loc.data from rfl]
        exact List.getLast?_append_of_ne_nil _ hlocn
      rw [he1, he2, he3] at hc
      exact hlast c hc
  have hsearch := searchGenderAge_shaped g ds (' ' :: ('מ' :: loc.data)) hg hds hall
    (by intro c hc; simp at hc; subst hc; decide)
  have htail : stripChars (' ' :: ('מ' :: loc.data)) = 'מ' :: loc.data := by
    rw [stripChars_ws_cons (by decide)]
    refine stripChars_eq_self ?_ ?_
    · intro c hc
      simp at hc
      subst hc
      decide
    · intro c hc
      have he3 : ('מ' :: loc.data).getLast? = loc.data.getLast? := by
        rw [show ('מ' :: loc.data) = ['מ'] ++ loc.data from rfl]
        exact List.getLast?_append_of_ne_nil _ hlocn
      rw [he3] at hc
      exact hlast c hc
  unfold parse_detailed_gender_age_location
  rw [if_neg htext]
  simp only [hfind, List.drop_left, hmid, hsearch, htail, hsl]

/-- Witness for `c4_parse_detailed_amended`: end-to-end scenario B. -/
theorem c4_witness :
    parse_detailed_gender_age_location "רווק בן 20 מבאר שבע" =
      (some "רווק", some "בן", some 20, some "באר שבע") := by
  have h := c4_parse_detailed_amended "רווק" "בן" "20".data "באר שבע" (by decide) (by decide)
    (Or.inl rfl) (by decide) (by decide) (by decide) (by decide)
  have heq : (⟨"רווק".data ++ ' ' ::
      ("בן".data ++ ' ' :: ("20".data ++ ' ' :: ('מ' :: "באר שבע".data)))⟩ : String)
      = "רווק בן 20 מבאר שבע" := by decide
  rw [heq] at h
  rw [h]
  decide

/-! ## Claim C7: canonical gender derivation in the record transformer -/

/-- **C7.**  The claim (and the spec) say the transformer falls back to a
directly-supplied canonical gender field when no local (Hebrew) gender word
is available.  The code cannot: `hebrew_to_english_gender` returns the truthy
string `"other"` for any unrecognized input, so the `if not gender_en:`
fallback branches at lines 688–691 are unreachable.  First two conjuncts: a
record with no Hebrew gender word but an explicit `gender_popup_en` (resp.
`gender_listing`) of `"female"`/`"male"` is transformed with canonical gender
`"other"`, not the supplied value.  Last two conjuncts: the parts of the
claim that do hold — Hebrew-first derivation, and `"couple"` recorded in
`isCouple` with the primary gender bucket `"other"`. -/
theorem c7_gender_fallback_dead :
    convert_gender_fields none (some "female") none = ("other", "", false, "other") ∧
    convert_gender_fields none none (some "male") = ("other", "", false, "other") ∧
    convert_gender_fields (some "בת") (some "male") (some "male")
      = ("female", "woman", false, "female") ∧
    convert_gender_fields (some "זוג") none none = ("couple", "couple", true, "other") := by
  refine ⟨by decide, by decide, by decide, by decide⟩

/-! ## Claim C8: comma-delimited tag decoding -/

/-- **C8, counterexample.**  The claim states that empty segments are dropped
from the decoded tag list.  They are not: the source is
`[tag.strip() for tag in s.split(',')]`, with no filtering. -/
theorem c8_counterexample :
    split_tag_field (some "a,,b") = ["a", "", "b"] ∧
    "" ∈ split_tag_field (some "a,,b") := by
  refine ⟨by decide, by decide⟩

theorem splitOnChar_intercalate : ∀ (ls : List (List Char)), ls ≠ [] →
    (∀ l ∈ ls, ',' ∉ l) →
    splitOnChar ',' (List.intercalate [','] ls) = ls
  | [], h, _ => absurd rfl h
  | [a], _, hall => by
    rw [show List.intercalate [','] [a] = a from by simp [List.intercalate]]
    exact splitOnChar_no_sep (hall a (by simp))
  | a :: b :: t, _, hall => by
    have hstep : List.intercalate [','] (a :: b :: t)
        = a ++ ',' :: List.intercalate [','] (b :: t) := by
      simp [List.intercalate]
    rw [hstep, splitOnChar_append _ (hall a (by simp))]
    rw [splitOnChar_intercalate (b :: t) (by simp)
      (fun l hl => hall l (List.mem_cons_of_mem _ hl))]

/-- **C8** (amended).  The claim as stated is false (see
`c8_counterexample`).  Amended: tag-list decoding splits on commas and trims
each segment, *keeping* empty segments; an absent (or null, or empty-string)
tag field yields the empty sequence without error. -/
theorem c8_split_tag_amended :
    split_tag_field none = [] ∧ split_tag_field (some "") = [] ∧
    (∀ parts : List String, parts ≠ [] → (∀ p ∈ parts, ',' ∉ p.data) →
      joinComma parts ≠ "" →
      split_tag_field (some (joinComma parts)) = parts.map pyStrip) := by
  refine ⟨rfl, rfl, ?_⟩
  intro parts hne hnc hjoin
  show (if joinComma parts = "" then [] else
      (splitOnChar ',' (joinComma parts).data).map (fun seg => (⟨stripChars seg⟩ : String)))
    = parts.map pyStrip
  rw [if_neg hjoin]
  have hdata : (joinComma parts).data = List.intercalate [','] (parts.map String.data) := rfl
  rw [hdata, splitOnChar_intercalate (parts.map String.data) (by simpa using hne)
    (by intro l hl
        rcases List.mem_map.1 hl with ⟨p, hp, hpd⟩
        rw [← hpd]
        exact hnc p hp)]
  rw [List.map_map]
  rfl

/-- Witness for `c8_split_tag_amended`. -/
theorem c8_witness :
    split_tag_field (some (joinComma ["a", " b ", ""])) = ["a", "b", ""] := by
  have h := c8_split_tag_amended.2.2 ["a", " b ", ""] (by decide) (by decide) (by decide)
  rw [h]
  decide

/-! ## Claim C9: markup-to-text flattening of the rich-text `aboutMe` field -/

theorem dropWhile_head_not {p : Char → Bool} (l : List Char) :
    ∀ c, (l.dropWhile p).head? = some c → p c = false := by
  induction l with
  | nil => intro c hc; simp at hc
  | cons a t ih =>
    intro c hc
    rw [List.dropWhile_cons] at hc
    by_cases hpa : p a = true
    · rw [if_pos hpa] at hc
      exact ih c hc
    · rw [if_neg hpa] at hc
      have hac : a = c := by simpa using hc
      subst hac
      simpa using hpa

theorem stripChars_idem (l : List Char) : stripChars (stripChars l) = stripChars l := by
  refine stripChars_eq_self ?_ ?_
  · intro c hc
    have hypre : stripChars l <+: l.dropWhile isWS := by
      unfold stripChars
      have hsuf : ((l.dropWhile isWS).reverse.dropWhile isWS) <:+ (l.dropWhile isWS).reverse :=
        List.dropWhile_suffix _
      have := List.reverse_prefix.2 hsuf
      simpa using this
    rcases hypre with ⟨r, hr⟩
    have hxh : (l.dropWhile isWS).head? = some c := by
      rw [← hr]
      cases hsc : stripChars l with
      | nil => rw [hsc] at hc; simp at hc
      | cons a t =>
        rw [hsc] at hc
        have hac : a = c := by simpa using hc
        simp [← hac]
    exact dropWhile_head_not l c hxh
  · intro c hc
    have hrev : (stripChars l).reverse.head? = some c := by rwa [List.head?_reverse]
    unfold stripChars at hrev
    rw [List.reverse_reverse] at hrev
    exact dropWhile_head_not _ c hrev

/-- `noAdjWs` holds of `a :: l` when `a` is non-whitespace or `l` starts
non-whitespace, given it holds of `l`. -/
theorem noAdjWs_cons {a : Char} {l : List Char}
    (h1 : isWS a = false ∨ (∀ c, l.head? = some c → isWS c = false))
    (h2 : noAdjWs l = true) : noAdjWs (a :: l) = true := by
  cases l with
  | nil => rfl
  | cons b t =>
    show (!(isWS a && isWS b) && noAdjWs (b :: t)) = true
    rcases h1 with h1 | h1
    · simp [h1, h2]
    · simp [h1 b rfl, h2]

theorem collapseWsSkip_head : ∀ (l : List Char) (c : Char),
    (collapseWsSkip l).head? = some c → isWS c = false
  | [], c, hc => by simp [collapseWsSkip] at hc
  | a :: t, c, hc => by
    rw [collapseWsSkip] at hc
    by_cases hws : isWS a = true
    · rw [if_pos hws] at hc
      exact collapseWsSkip_head t c hc
    · rw [if_neg hws] at hc
      have hac : a = c := by simpa using hc
      subst hac
      simpa using hws

theorem collapse_noAdjWs : ∀ l : List Char,
    noAdjWs (collapseWs l) = true ∧ noAdjWs (collapseWsSkip l) = true
  | [] => ⟨rfl, rfl⟩
  | a :: t => by
    have ih := collapse_noAdjWs t
    constructor
    · rw [collapseWs]
      by_cases hws : isWS a = true
      · rw [if_pos hws]
        exact noAdjWs_cons (Or.inr (collapseWsSkip_head t)) ih.2
      · rw [if_neg hws]
        exact noAdjWs_cons (Or.inl (by simpa using hws)) ih.1
    · rw [collapseWsSkip]
      by_cases hws : isWS a = true
      · rw [if_pos hws]
        exact ih.2
      · rw [if_neg hws]
        exact noAdjWs_cons (Or.inl (by simpa using hws)) ih.1

theorem collapse_allWsSpace : ∀ l : List Char,
    allWsSpace (collapseWs l) = true ∧ allWsSpace (collapseWsSkip l) = true
  | [] => ⟨rfl, rfl⟩
  | a :: t => by
    have ih := collapse_allWsSpace t
    constructor
    · rw [collapseWs]
      by_cases hws : isWS a = true
      · rw [if_pos hws]
        simpa [allWsSpace] using ih.2
      · rw [if_neg hws]
        have : allWsSpace (a :: collapseWs t) = ((!isWS a || a = ' ') && allWsSpace (collapseWs t)) := by
          simp [allWsSpace]
        rw [this]
        simp [hws, ih.1]
    · rw [collapseWsSkip]
      by_cases hws : isWS a = true
      · rw [if_pos hws]
        exact ih.2
      · rw [if_neg hws]
        have : allWsSpace (a :: collapseWs t) = ((!isWS a || a = ' ') && allWsSpace (collapseWs t)) := by
          simp [allWsSpace]
        rw [this]
        simp [hws, ih.1]

theorem pyReplace_head (pat rep t : List Char) (hp : pat ≠ []) :
    pyReplaceChars pat rep (pat ++ t) = rep ++ pyReplaceChars pat rep t := by
  cases pat with
  | nil => exact absurd rfl hp
  | cons p ps =>
    rw [show ((p :: ps) ++ t) = p :: (ps ++ t) from rfl]
    rw [pyReplaceChars]
    have hcond : (p :: ps).isPrefixOf (p :: (ps ++ t)) = true ∧ (p :: ps) ≠ [] := by
      constructor
      · rw [List.isPrefixOf_iff_prefix]
        exact List.prefix_append _ _
      · simp
    rw [dif_pos hcond]
    have hdrop : (p :: (ps ++ t)).drop (p :: ps).length = t := by
      rw [show (p :: (ps ++ t)) = (p :: ps) ++ t from rfl]
      exact List.drop_left _ _
    rw [hdrop]

theorem pyReplace_no_marker (pat rep : List Char) : ∀ t : List Char,
    containsSub pat t = false → pyReplaceChars pat rep t = t
  | [], _ => by rw [pyReplaceChars]
  | c :: cs, h => by
    rw [containsSub] at h
    rcases Bool.or_eq_false_iff.1 h with ⟨hpre, hrest⟩
    rw [pyReplaceChars]
    rw [dif_neg (fun hh => by rw [hpre] at hh; exact absurd hh.1 (by simp))]
    rw [pyReplace_no_marker pat rep cs hrest]

/-- **C9.**  The `aboutMe` flattening is exactly the claimed pipeline:
(1) it is the staged composition of visible-text concatenation
(`get_text(separator=' ', strip=True)`), whitespace collapsing, the two
newline substitutions, and a final trim; (2) the result is trimmed (a fixed
point of `pyStrip`); (3) collapsing leaves no two adjacent whitespace
characters and only plain spaces as whitespace; (4) the line-break marker at
the head of the text is substituted by a newline; (5) text without the
marker is left unchanged by the substitution step. -/
theorem c9_about_me_pipeline :
    (∀ doc : Html, about_me_flatten doc =
      ⟨stripChars (pyReplaceChars "</p><p".data "</p>\n<p".data
        (pyReplaceChars "<br>".data "\n".data (collapseWs (getTextStripSep doc).data)))⟩) ∧
    (∀ doc : Html, pyStrip (about_me_flatten doc) = about_me_flatten doc) ∧
    (∀ l : List Char, noAdjWs (collapseWs l) = true ∧ allWsSpace (collapseWs l) = true) ∧
    (∀ t : List Char, pyReplaceChars "<br>".data "\n".data ("<br>".data ++ t)
      = '\n' :: pyReplaceChars "<br>".data "\n".data t) ∧
    (∀ t : List Char, containsSub "<br>".data t = false →
      pyReplaceChars "<br>".data "\n".data t = t) := by
  refine ⟨fun doc => rfl, ?_, ?_, ?_, ?_⟩
  · intro doc
    show (⟨stripChars (about_me_flatten doc).data⟩ : String) = about_me_flatten doc
    have : (about_me_flatten doc).data = stripChars (pyReplaceChars "</p><p".data "</p>\n<p".data
        (pyReplaceChars "<br>".data "\n".data (collapseWs (getTextStripSep doc).data))) := rfl
    rw [this, stripChars_idem]
    rfl
  · intro l
    exact ⟨(collapse_noAdjWs l).1, (collapse_allWsSpace l).1⟩
  · intro t
    exact pyReplace_head _ _ t (by decide)
  · intro t ht
    exact pyReplace_no_marker _ _ t ht

/-- Witness for `c9_about_me_pipeline`. -/
theorem c9_witness :
    pyStrip (about_me_flatten (Html.elem "div" [] [Html.text " שלום ", Html.text "עולם"]))
      = about_me_flatten (Html.elem "div" [] [Html.text " שלום ", Html.text "עולם"]) ∧
    pyReplaceChars "<br>".data "\n".data "xy".data = "xy".data :=
  ⟨c9_about_me_pipeline.2.1 _, c9_about_me_pipeline.2.2.2.2 "xy".data (by decide)⟩

/-! ## Claims C5 and C6: the photo resolver -/

/-- With a valid URL and no usable existing file at the guessed path, the
resolver proceeds to the fetch-and-validate tail. -/
theorem download_photo_reaches_fetch (fs : String → Option Nat)
    (fetch : Option (Nat × String)) (photo_url user_id photos_dir label : String)
    (gender : Option String)
    (hurl : ¬ (photo_url = "" ∨ strContains (pyLower photo_url) "transparent1px.gif" = true))
    (hreach : fs (guessed_photo_path photos_dir photo_url user_id label gender) = none ∨
      fs (guessed_photo_path photos_dir photo_url user_id label gender) = some 0) :
    download_photo fs fetch photo_url user_id photos_dir label gender =
      download_photo_fetch fs fetch (photo_base_path photos_dir photo_url user_id label gender)
        (guess_extension photo_url)
        (guessed_photo_path photos_dir photo_url user_id label gender) := by
  unfold download_photo
  rw [if_neg hurl]
  rcases hreach with h | h <;> rw [h] <;> rfl

/-- The fetched-file validation: a zero-byte or placeholder-sized download is
deleted and reported absent, and the filesystem retains nothing new. -/
theorem download_photo_fetch_placeholder (fs : String → Option Nat) (sz : Nat)
    (ct base ext file_path : String) (hsz : sz = 0 ∨ sz ∈ placeholder_sizes) :
    (download_photo_fetch fs (some (sz, ct)) base ext file_path).fetched = true ∧
    (download_photo_fetch fs (some (sz, ct)) base ext file_path).result = none ∧
    (download_photo_fetch fs (some (sz, ct)) base ext file_path).fsAfter
      (reconciled_path base ext file_path ct) = none ∧
    (∀ q, (download_photo_fetch fs (some (sz, ct)) base ext file_path).fsAfter q = fs q ∨
      (download_photo_fetch fs (some (sz, ct)) base ext file_path).fsAfter q = none) := by
  have hred : download_photo_fetch fs (some (sz, ct)) base ext file_path =
      (if sz ∈ placeholder_sizes then
        ⟨none, true,
          fsSet (fsSet fs (reconciled_path base ext file_path ct) (some sz))
            (reconciled_path base ext file_path ct) none⟩
      else if sz = 0 then
        ⟨none, true,
          fsSet (fsSet fs (reconciled_path base ext file_path ct) (some sz))
            (reconciled_path base ext file_path ct) none⟩
      else
        ⟨some (reconciled_path base ext file_path ct), true,
          fsSet fs (reconciled_path base ext file_path ct) (some sz)⟩ : DlOutcome) := rfl
  rw [hred]
  rcases hsz with hsz | hsz
  · subst hsz
    rw [if_neg (by decide), if_pos rfl]
    refine ⟨rfl, rfl, by simp [fsSet], ?_⟩
    intro q
    by_cases hq : q = reconciled_path base ext file_path ct
    · right; simp [fsSet, hq]
    · left; simp [fsSet, hq]
  · rw [if_pos hsz]
    refine ⟨rfl, rfl, by simp [fsSet], ?_⟩
    intro q
    by_cases hq : q = reconciled_path base ext file_path ct
    · right; simp [fsSet, hq]
    · left; simp [fsSet, hq]

/-- **C5.**  For every photo download whose fetched file ends up zero-sized
or exactly one of the placeholder sizes (24381, 15905, 16971 bytes), the file
is deleted and the resolver returns absent; the filesystem retains no new
file anywhere. -/
theorem c5_placeholder_never_retained (fs : String → Option Nat) (sz : Nat)
    (ct photo_url user_id photos_dir label : String) (gender : Option String)
    (hurl : ¬ (photo_url = "" ∨ strContains (pyLower photo_url) "transparent1px.gif" = true))
    (hreach : fs (guessed_photo_path photos_dir photo_url user_id label gender) = none ∨
      fs (guessed_photo_path photos_dir photo_url user_id label gender) = some 0)
    (hsz : sz = 0 ∨ sz ∈ placeholder_sizes) :
    (download_photo fs (some (sz, ct)) photo_url user_id photos_dir label gender).fetched = true ∧
    (download_photo fs (some (sz, ct)) photo_url user_id photos_dir label gender).result = none ∧
    (download_photo fs (some (sz, ct)) photo_url user_id photos_dir label gender).fsAfter
      (reconciled_path (photo_base_path photos_dir photo_url user_id label gender)
        (guess_extension photo_url)
        (guessed_photo_path photos_dir photo_url user_id label gender) ct) = none ∧
    (∀ q, (download_photo fs (some (sz, ct)) photo_url user_id photos_dir label gender).fsAfter q
        = fs q ∨
      (download_photo fs (some (sz, ct)) photo_url user_id photos_dir label gender).fsAfter q
        = none) := by
  rw [download_photo_reaches_fetch fs (some (sz, ct)) photo_url user_id photos_dir label gender
    hurl hreach]
  exact download_photo_fetch_placeholder fs sz ct _ _ _ hsz

/-- Witness for `c5_placeholder_never_retained`: a 24381-byte placeholder
download is deleted and resolution reports absent. -/
theorem c5_witness :
    (download_photo (fun _ => none) (some (24381, "image/jpeg"))
        "http://h/p.ashx?customerId=1&number=2" "1" "photos" "x" none).result = none ∧
    (download_photo (fun _ => none) (some (24381, "image/jpeg"))
        "http://h/p.ashx?customerId=1&number=2" "1" "photos" "x" none).fetched = true :=
  ⟨(c5_placeholder_never_retained (fun _ => none) 24381 "image/jpeg"
      "http://h/p.ashx?customerId=1&number=2" "1" "photos" "x" none
      (by decide) (Or.inl rfl) (Or.inr (by decide))).2.1,
   (c5_placeholder_never_retained (fun _ => none) 24381 "image/jpeg"
      "http://h/p.ashx?customerId=1&number=2" "1" "photos" "x" none
      (by decide) (Or.inl rfl) (Or.inr (by decide))).1⟩

/-- **C6, counterexample.**  The claim states that after a successful first
resolution, resolving the same reference again (file untouched in between)
returns the same path and performs *no second network fetch*.  When the
response content type (`image/png`) disagrees with the URL-guessed extension
(`.jpg`), the first resolution renames the file, the second resolution checks
the original guessed path, finds nothing, and fetches again — same returned
path, but a second network fetch is performed. -/
theorem c6_counterexample :
    (download_photo (fun _ => none) (some (100, "image/png"))
      "https://www.zbeng.co.il/picture.ashx?customerId=7&number=1"
      "7" "photos" "listing_main" (some "female")).result
      = some "photos/woman_7_listing_main_n1.png" ∧
    (download_photo (fun _ => none) (some (100, "image/png"))
      "https://www.zbeng.co.il/picture.ashx?customerId=7&number=1"
      "7" "photos" "listing_main" (some "female")).fsAfter
        "photos/woman_7_listing_main_n1.png" = some 100 ∧
    (download_photo
      (download_photo (fun _ => none) (some (100, "image/png"))
        "https://www.zbeng.co.il/picture.ashx?customerId=7&number=1"
        "7" "photos" "listing_main" (some "female")).fsAfter
      (some (100, "image/png"))
      "https://www.zbeng.co.il/picture.ashx?customerId=7&number=1"
      "7" "photos" "listing_main" (some "female")).result
      = some "photos/woman_7_listing_main_n1.png" ∧
    (download_photo
      (download_photo (fun _ => none) (some (100, "image/png"))
        "https://www.zbeng.co.il/picture.ashx?customerId=7&number=1"
        "7" "photos" "listing_main" (some "female")).fsAfter
      (some (100, "image/png"))
      "https://www.zbeng.co.il/picture.ashx?customerId=7&number=1"
      "7" "photos" "listing_main" (some "female")).fetched = true := by
  refine ⟨by decide, by decide, by decide, by decide⟩

theorem download_photo_fetch_none (fs : String → Option Nat) (base ext file_path : String) :
    download_photo_fetch fs none base ext file_path = ⟨none, true, fs⟩ := rfl

/-- A successful fetch-and-validate tail, when the content type does not
rename the target, leaves a nonzero non-placeholder file at the guessed
path and returns it. -/
theorem download_photo_fetch_success (fs : String → Option Nat)
    (fetch : Option (Nat × String)) (base ext gpath p : String)
    (hnorename : ∀ sz ct, fetch = some (sz, ct) → reconciled_path base ext gpath ct = gpath)
    (hres : (download_photo_fetch fs fetch base ext gpath).result = some p) :
    p = gpath ∧ ∃ sz : Nat,
      (download_photo_fetch fs fetch base ext gpath).fsAfter p = some sz ∧
      sz ≠ 0 ∧ sz ∉ placeholder_sizes := by
  rcases fetch with _ | ⟨sz, ct⟩
  · rw [download_photo_fetch_none] at hres
    simp at hres
  · have hred : download_photo_fetch fs (some (sz, ct)) base ext gpath =
        (if sz ∈ placeholder_sizes then
          ⟨none, true,
            fsSet (fsSet fs (reconciled_path base ext gpath ct) (some sz))
              (reconciled_path base ext gpath ct) none⟩
        else if sz = 0 then
          ⟨none, true,
            fsSet (fsSet fs (reconciled_path base ext gpath ct) (some sz))
              (reconciled_path base ext gpath ct) none⟩
        else
          ⟨some (reconciled_path base ext gpath ct), true,
            fsSet fs (reconciled_path base ext gpath ct) (some sz)⟩ : DlOutcome) := rfl
    rw [hred] at hres ⊢
    by_cases hp : sz ∈ placeholder_sizes
    · rw [if_pos hp] at hres
      simp at hres
    · by_cases h0 : sz = 0
      · rw [if_neg hp, if_pos h0] at hres
        simp at hres
      · rw [if_neg hp, if_neg h0] at hres ⊢
        have hrc := hnorename sz ct rfl
        rw [hrc] at hres
        have hpg : gpath = p := by simpa using hres
        subst hpg
        refine ⟨rfl, sz, ?_, h0, hp⟩
        rw [hrc]
        simp [fsSet]

/-- With a usable (nonzero, non-placeholder) file already at the guessed
path, resolution short-circuits: it returns that path and performs no
fetch, leaving the filesystem untouched. -/
theorem download_photo_shortcircuit (fs : String → Option Nat)
    (fetch2 : Option (Nat × String)) (photo_url user_id photos_dir label : String)
    (gender : Option String) (sz : Nat)
    (hurl : ¬ (photo_url = "" ∨ strContains (pyLower photo_url) "transparent1px.gif" = true))
    (hfs : fs (guessed_photo_path photos_dir photo_url user_id label gender) = some sz)
    (h0 : sz ≠ 0) (hp : sz ∉ placeholder_sizes) :
    download_photo fs fetch2 photo_url user_id photos_dir label gender =
      ⟨some (guessed_photo_path photos_dir photo_url user_id label gender), false, fs⟩ := by
  unfold download_photo
  rw [if_neg hurl, hfs, download_photo_existing]
  rw [if_pos (Nat.pos_of_ne_zero h0), if_neg hp]

/-- Case analysis of the existing-file dispatch on success. -/
theorem download_photo_existing_success (fs : String → Option Nat)
    (fetch : Option (Nat × String)) (base ext gpath p : String) (o : Option Nat)
    (ho : fs gpath = o)
    (hnorename' : ∀ sz ct, fetch = some (sz, ct) → reconciled_path base ext gpath ct = gpath)
    (hres : (download_photo_existing fs fetch base ext gpath o).result = some p) :
    p = gpath ∧ ∃ sz : Nat,
      (download_photo_existing fs fetch base ext gpath o).fsAfter p = some sz ∧
      sz ≠ 0 ∧ sz ∉ placeholder_sizes := by
  cases o with
  | none => exact download_photo_fetch_success _ _ _ _ _ _ hnorename' hres
  | some sz0 =>
    have hred : download_photo_existing fs fetch base ext gpath (some sz0)
        = (if sz0 > 0 then
            (if sz0 ∈ placeholder_sizes then ⟨none, false, fsSet fs gpath none⟩
             else ⟨some gpath, false, fs⟩)
          else download_photo_fetch fs fetch base ext gpath : DlOutcome) := rfl
    rw [hred] at hres ⊢
    by_cases h0 : sz0 > 0
    · rw [if_pos h0] at hres ⊢
      by_cases hp : sz0 ∈ placeholder_sizes
      · rw [if_pos hp] at hres
        simp at hres
      · rw [if_neg hp] at hres ⊢
        have hpg : gpath = p := by simpa using hres
        subst hpg
        exact ⟨rfl, sz0, ho, by omega, hp⟩
    · rw [if_neg h0] at hres ⊢
      exact download_photo_fetch_success _ _ _ _ _ _ hnorename' hres

/-- Characterization of a successful first resolution (with no content-type
rename): the returned path is the guessed path and a usable file is left
there. -/
theorem download_photo_success (fs : String → Option Nat)
    (fetch : Option (Nat × String)) (photo_url user_id photos_dir label : String)
    (gender : Option String) (p : String)
    (hnorename : ∀ sz ct, fetch = some (sz, ct) →
      reconcile_extension ct (guess_extension photo_url) = guess_extension photo_url)
    (hres : (download_photo fs fetch photo_url user_id photos_dir label gender).result
      = some p) :
    ¬ (photo_url = "" ∨ strContains (pyLower photo_url) "transparent1px.gif" = true) ∧
    p = guessed_photo_path photos_dir photo_url user_id label gender ∧
    ∃ sz : Nat,
      (download_photo fs fetch photo_url user_id photos_dir label gender).fsAfter p = some sz ∧
      sz ≠ 0 ∧ sz ∉ placeholder_sizes := by
  have hnorename' : ∀ sz ct, fetch = some (sz, ct) →
      reconciled_path (photo_base_path photos_dir photo_url user_id label gender)
        (guess_extension photo_url)
        (guessed_photo_path photos_dir photo_url user_id label gender) ct
      = guessed_photo_path photos_dir photo_url user_id label gender := by
    intro sz ct hf
    unfold reconciled_path
    rw [if_neg (by simpa using hnorename sz ct hf)]
  by_cases hurl : photo_url = "" ∨ strContains (pyLower photo_url) "transparent1px.gif" = true
  · exfalso
    unfold download_photo at hres
    rw [if_pos hurl] at hres
    simp at hres
  · refine ⟨hurl, ?_⟩
    unfold download_photo at hres ⊢
    rw [if_neg hurl] at hres ⊢
    exact download_photo_existing_success _ _ _ _ _ _ _ rfl hnorename' hres

/-- **C6** (amended).  The claim as stated is false (see
`c6_counterexample`).  Amended: when the first resolution succeeds *and does
not rename the file* (i.e. the response content type agrees with the
URL-guessed extension — true in particular whenever no fetch happened),
resolving the same reference again with the file untouched returns the same
local path and performs no second network fetch, whatever the network would
answer the second time. -/
theorem c6_resolution_idempotent_amended (fs : String → Option Nat)
    (fetch fetch2 : Option (Nat × String))
    (photo_url user_id photos_dir label : String) (gender : Option String) (p : String)
    (hnorename : ∀ sz ct, fetch = some (sz, ct) →
      reconcile_extension ct (guess_extension photo_url) = guess_extension photo_url)
    (hres : (download_photo fs fetch photo_url user_id photos_dir label gender).result
      = some p) :
    (download_photo (download_photo fs fetch photo_url user_id photos_dir label gender).fsAfter
        fetch2 photo_url user_id photos_dir label gender).result = some p ∧
    (download_photo (download_photo fs fetch photo_url user_id photos_dir label gender).fsAfter
        fetch2 photo_url user_id photos_dir label gender).fetched = false := by
  obtain ⟨hurl, hpg, sz, hfsz, h0, hp⟩ :=
    download_photo_success fs fetch photo_url user_id photos_dir label gender p hnorename hres
  subst hpg
  rw [download_photo_shortcircuit
    (download_photo fs fetch photo_url user_id photos_dir label gender).fsAfter
    fetch2 photo_url user_id photos_dir label gender sz hurl hfsz h0 hp]
  exact ⟨rfl, rfl⟩

/-- Witness for `c6_resolution_idempotent_amended`: with a content type that
agrees with the guessed extension, the second resolution returns the same
path without fetching. -/
theorem c6_witness :
    (download_photo
      (download_photo (fun _ => none) (some (100, "image/jpeg"))
        "https://www.zbeng.co.il/picture.ashx?customerId=7&number=1"
        "7" "photos" "listing_main" (some "female")).fsAfter
      (some (100, "image/jpeg"))
      "https://www.zbeng.co.il/picture.ashx?customerId=7&number=1"
      "7" "photos" "listing_main" (some "female")).result
      = some "photos/woman_7_listing_main_n1.jpg" ∧
    (download_photo
      (download_photo (fun _ => none) (some (100, "image/jpeg"))
        "https://www.zbeng.co.il/picture.ashx?customerId=7&number=1"
        "7" "photos" "listing_main" (some "female")).fsAfter
      (some (100, "image/jpeg"))
      "https://www.zbeng.co.il/picture.ashx?customerId=7&number=1"
      "7" "photos" "listing_main" (some "female")).fetched = false :=
  c6_resolution_idempotent_amended (fun _ => none) (some (100, "image/jpeg"))
    (some (100, "image/jpeg"))
    "https://www.zbeng.co.il/picture.ashx?customerId=7&number=1"
    "7" "photos" "listing_main" (some "female")
    "photos/woman_7_listing_main_n1.jpg"
    (by intro sz ct h; cases h; decide)
    (by decide)

/-! ## Claim C3: the dedup gate of the main loop -/

theorem listing_events_none (s : Summary) (h : s.photo_url_listing = none) :
    listing_events s = [] := by
  unfold listing_events
  rw [h]

theorem listing_events_some (s : Summary) (purl : String)
    (h : s.photo_url_listing = some purl) :
    listing_events s = if purl = "" then [] else [Ev.downloadPhoto s.user_id purl] := by
  unfold listing_events
  rw [h]

theorem summary_events_uid (fd : String → Details) (dl : String → Option String)
    (s : Summary) : ∀ e ∈ summary_events fd dl s, e.uidOf = s.user_id := by
  intro e he
  unfold summary_events at he
  rcases List.mem_append.1 he with he | he
  · rcases List.mem_append.1 he with he | he
    · rcases hurl : s.photo_url_listing with _ | purl
      · rw [listing_events_none s hurl] at he
        simp at he
      · rw [listing_events_some s purl hurl] at he
        by_cases hp : purl = ""
        · rw [if_pos hp] at he
          simp at he
        · rw [if_neg hp] at he
          have hED : e = Ev.downloadPhoto s.user_id purl := by simpa using he
          rw [hED]
          rfl
    · have : e = Ev.fetchDetail s.user_id := by simpa using he
      rw [this]
      rfl
  · unfold popup_events at he
    rcases List.mem_filterMap.1 he with ⟨purl, _, heq⟩
    by_cases hc : some purl = s.photo_url_listing ∧ truthyOptStr (saved_listing_file dl s) = true
    · rw [if_pos hc] at heq
      simp at heq
    · rw [if_neg hc] at heq
      have hED : Ev.downloadPhoto s.user_id purl = e := by simpa using heq
      rw [← hED]
      rfl

theorem summary_events_fetch_mem (fd : String → Details) (dl : String → Option String)
    (s : Summary) : Ev.fetchDetail s.user_id ∈ summary_events fd dl s := by
  unfold summary_events
  exact List.mem_append.2 (Or.inl (List.mem_append.2 (Or.inr (by simp))))

theorem summary_events_count_le (fd : String → Details) (dl : String → Option String)
    (s : Summary) (uid : String) :
    countFetch uid (summary_events fd dl s) ≤ 1 := by
  unfold countFetch summary_events
  rw [List.countP_append, List.countP_append]
  have h1 : (listing_events s).countP (fun e => e == Ev.fetchDetail uid) = 0 := by
    rw [List.countP_eq_zero]
    intro e he
    rcases hurl : s.photo_url_listing with _ | purl
    · rw [listing_events_none s hurl] at he
      simp at he
    · rw [listing_events_some s purl hurl] at he
      by_cases hp : purl = ""
      · rw [if_pos hp] at he
        simp at he
      · rw [if_neg hp] at he
        have hED : e = Ev.downloadPhoto s.user_id purl := by simpa using he
        rw [hED]
        simp
  have h3 : (popup_events fd dl s).countP (fun e => e == Ev.fetchDetail uid) = 0 := by
    rw [List.countP_eq_zero]
    intro e he
    unfold popup_events at he
    rcases List.mem_filterMap.1 he with ⟨purl, _, heq⟩
    by_cases hc : some purl = s.photo_url_listing ∧ truthyOptStr (saved_listing_file dl s) = true
    · rw [if_pos hc] at heq
      simp at heq
    · rw [if_neg hc] at heq
      have hED : Ev.downloadPhoto s.user_id purl = e := by simpa using heq
      rw [← hED]
      simp
  have h2 : ([Ev.fetchDetail s.user_id] : List Ev).countP (fun e => e == Ev.fetchDetail uid) ≤ 1 := by
    by_cases hs : s.user_id = uid <;> simp [List.countP_cons, hs]
  omega

theorem summary_events_count_ne (fd : String → Details) (dl : String → Option String)
    (s : Summary) (uid : String) (h : s.user_id ≠ uid) :
    countFetch uid (summary_events fd dl s) = 0 := by
  unfold countFetch
  rw [List.countP_eq_zero]
  intro e he hbe
  have he1 : e = Ev.fetchDetail uid := by simpa using hbe
  have he2 := summary_events_uid fd dl s e he
  rw [he1] at he2
  exact h he2.symm

/-- One loop step preserves the no-events-for-a-seen-id invariant. -/
theorem step_no_events (fd : String → Details) (dl : String → Option String)
    (st : LoopState) (s : Summary) (uid : String)
    (h : uid ∈ st.processed ∧ ∀ ev ∈ st.log, ev.uidOf ≠ uid) :
    uid ∈ (process_summary fd dl st s).processed ∧
      ∀ ev ∈ (process_summary fd dl st s).log, ev.uidOf ≠ uid := by
  unfold process_summary
  by_cases h0 : s.user_id = ""
  · rw [if_pos h0]
    exact h
  · rw [if_neg h0]
    by_cases h1 : s.user_id ∈ st.processed
    · rw [if_pos h1]
      exact h
    · rw [if_neg h1]
      have hne : s.user_id ≠ uid := fun hh => h1 (hh ▸ h.1)
      refine ⟨List.mem_append.2 (Or.inl h.1), ?_⟩
      intro ev hev
      rcases List.mem_append.1 hev with hev | hev
      · exact h.2 ev hev
      · rw [summary_events_uid fd dl s ev hev]
        exact hne

/-- One loop step never increases the fetch-count-plus-unseen-indicator
measure for a given id. -/
theorem step_measure (fd : String → Details) (dl : String → Option String)
    (st : LoopState) (s : Summary) (uid : String) :
    countFetch uid (process_summary fd dl st s).log +
      (if uid ∈ (process_summary fd dl st s).processed then 0 else 1) ≤
    countFetch uid st.log + (if uid ∈ st.processed then 0 else 1) := by
  unfold process_summary
  by_cases h0 : s.user_id = ""
  · rw [if_pos h0]
  · rw [if_neg h0]
    by_cases h1 : s.user_id ∈ st.processed
    · rw [if_pos h1]
    · rw [if_neg h1]
      have hcnt : countFetch uid (st.log ++ summary_events fd dl s)
          = countFetch uid st.log + countFetch uid (summary_events fd dl s) := by
        unfold countFetch
        exact List.countP_append _ _ _
      by_cases hs : s.user_id = uid
      · have hmem : uid ∈ st.processed ++ [s.user_id] := by simp [hs]
        have hnin : uid ∉ st.processed := fun hh => h1 (hs ▸ hh)
        simp only [hcnt, if_pos hmem, if_neg hnin]
        have := summary_events_count_le fd dl s uid
        omega
      · have hmm : (uid ∈ st.processed ++ [s.user_id]) ↔ uid ∈ st.processed := by
          rw [List.mem_append]
          simp only [List.mem_singleton]
          constructor
          · rintro (hh | hh)
            · exact hh
            · exact absurd hh.symm hs
          · exact Or.inl
        have hz := summary_events_count_ne fd dl s uid hs
        by_cases hin : uid ∈ st.processed
        · simp only [hcnt, if_pos (hmm.2 hin), if_pos hin, hz]
          omega
        · simp only [hcnt, if_neg (fun hh => hin (hmm.1 hh)), if_neg hin, hz]
          omega

/-- One loop step preserves the downloads-imply-a-fetch invariant. -/
theorem step_dl_fetch (fd : String → Details) (dl : String → Option String)
    (st : LoopState) (s : Summary) (uid : String)
    (h : ∀ url, Ev.downloadPhoto uid url ∈ st.log → Ev.fetchDetail uid ∈ st.log) :
    ∀ url, Ev.downloadPhoto uid url ∈ (process_summary fd dl st s).log →
      Ev.fetchDetail uid ∈ (process_summary fd dl st s).log := by
  unfold process_summary
  by_cases h0 : s.user_id = ""
  · rw [if_pos h0]
    exact h
  · rw [if_neg h0]
    by_cases h1 : s.user_id ∈ st.processed
    · rw [if_pos h1]
      exact h
    · rw [if_neg h1]
      intro url hurl
      rcases List.mem_append.1 hurl with hmem | hmem
      · exact List.mem_append.2 (Or.inl (h url hmem))
      · have := summary_events_uid fd dl s _ hmem
        have huid : uid = s.user_id := this
        refine List.mem_append.2 (Or.inr ?_)
        rw [huid]
        exact summary_events_fetch_mem fd dl s

/-- The three invariants hold of the whole loop, from any starting state. -/
theorem main_loop_go (fd : String → Details) (dl : String → Option String)
    (uid : String) : ∀ (summaries : List Summary) (st : LoopState),
    ((uid ∈ st.processed ∧ ∀ ev ∈ st.log, ev.uidOf ≠ uid) →
      (uid ∈ (summaries.foldl (process_summary fd dl) st).processed ∧
        ∀ ev ∈ (summaries.foldl (process_summary fd dl) st).log, ev.uidOf ≠ uid)) ∧
    (countFetch uid (summaries.foldl (process_summary fd dl) st).log +
        (if uid ∈ (summaries.foldl (process_summary fd dl) st).processed then 0 else 1) ≤
      countFetch uid st.log + (if uid ∈ st.processed then 0 else 1)) ∧
    ((∀ url, Ev.downloadPhoto uid url ∈ st.log → Ev.fetchDetail uid ∈ st.log) →
      ∀ url, Ev.downloadPhoto uid url ∈ (summaries.foldl (process_summary fd dl) st).log →
        Ev.fetchDetail uid ∈ (summaries.foldl (process_summary fd dl) st).log)
  | [], st => ⟨fun h => h, le_refl _, fun h => h⟩
  | s :: rest, st => by
    have ih := main_loop_go fd dl uid rest (process_summary fd dl st s)
    refine ⟨?_, ?_, ?_⟩
    · intro h
      exact ih.1 (step_no_events fd dl st s uid h)
    · exact le_trans ih.2.1 (step_measure fd dl st s uid)
    · intro h
      exact ih.2.2 (step_dl_fetch fd dl st s uid h)

/-- **C3.**  The dedup gate: (1) for an identifier already in the seen set at
startup, no detail fetch and no photo download is ever attempted during the
run; (2) any identifier is detail-fetched at most once in a run — a summary
re-encountered after its record completed is skipped before any network
work; (3) photo downloads for an identifier only happen in the one iteration
that also detail-fetches it. -/
theorem c3_dedup_gate (fd : String → Details) (dl : String → Option String)
    (seen0 : List String) (summaries : List Summary) (uid : String) :
    (uid ∈ seen0 →
      ∀ ev ∈ (main_loop fd dl seen0 summaries).log, ev.uidOf ≠ uid) ∧
    countFetch uid (main_loop fd dl seen0 summaries).log ≤ 1 ∧
    (∀ url, Ev.downloadPhoto uid url ∈ (main_loop fd dl seen0 summaries).log →
      Ev.fetchDetail uid ∈ (main_loop fd dl seen0 summaries).log) := by
  unfold main_loop
  have h := main_loop_go fd dl uid summaries ⟨seen0, []⟩
  refine ⟨fun hseen => (h.1 ⟨hseen, by simp⟩).2, ?_, h.2.2 (by simp)⟩
  have h2 := h.2.1
  have hc0 : countFetch uid ([] : List Ev) = 0 := rfl
  rw [hc0] at h2
  by_cases hin : uid ∈ seen0
  · have : (if uid ∈ (⟨seen0, []⟩ : LoopState).processed then 0 else 1) = 0 := if_pos hin
    rw [this] at h2
    omega
  · have : (if uid ∈ (⟨seen0, []⟩ : LoopState).processed then 0 else 1) = 1 := if_neg hin
    rw [this] at h2
    omega

/-! ## Claim C1: detail-payload format detection -/

/-- **C1, counterexample.**  The claim says that whenever strict JSON
decoding of a non-empty payload succeeds, the JSON-form field mapping is
returned *without raising an exception*.  The payload `"123"` decodes
successfully (to the integer `123`), and the JSON-form mapping then raises
`AttributeError` on its first `popup_json.get(...)` call, because the
decoded value is not an object; the `except json.JSONDecodeError` handler
does not catch it. -/
theorem c1_counterexample :
    jsonLoadsModel "123" = some (Json.num 123) ∧
    fetch_and_parse_user_details (fun _ => Html.elem "html" [] []) "123" "9"
      = Except.error "AttributeError: decoded JSON payload is not an object" := by
  constructor
  · rfl
  · rfl

/-- **C1** (amended).  The claim as stated is false (see
`c1_counterexample`).  Amended: for every non-empty payload, strict JSON
decoding is attempted first and the result dispatches the parse — decoding
failure always routes to the HTML-form mapping without raising, and decoding
success routes to the JSON-form mapping, which returns without raising
whenever the decoded value is an object whose string-operated fields (`me`,
`aboutMe` and the three tag fields) are well typed. -/
theorem c1_format_detection_amended (hp : String → Html) (payload uid : String)
    (hne : payload ≠ "") :
    (fetch_and_parse_user_details hp payload uid =
      match jsonLoadsModel payload with
      | some j => parse_user_details_from_json hp j uid
      | none => Except.ok (parse_user_details_from_popup_html hp payload uid)) ∧
    (jsonLoadsModel payload = none →
      fetch_and_parse_user_details hp payload uid
        = Except.ok (parse_user_details_from_popup_html hp payload uid)) ∧
    (∀ kvs, jsonLoadsModel payload = some (Json.obj kvs) →
      (∃ v, getStrTruthy kvs "me" = Except.ok v) →
      (∃ v, getStrTruthy kvs "aboutMe" = Except.ok v) →
      (∃ v, getStrTruthy kvs "iamTag" = Except.ok v) →
      (∃ v, getStrTruthy kvs "iamLookingForTag" = Except.ok v) →
      (∃ v, getStrTruthy kvs "makesMeItTag" = Except.ok v) →
      ∃ d, fetch_and_parse_user_details hp payload uid = Except.ok d) := by
  refine ⟨?_, ?_, ?_⟩
  · unfold fetch_and_parse_user_details
    rw [if_neg hne]
  · intro h
    unfold fetch_and_parse_user_details
    rw [if_neg hne, h]
  · intro kvs hj h1 h2 h3 h4 h5
    obtain ⟨v1, hv1⟩ := h1
    obtain ⟨v2, hv2⟩ := h2
    obtain ⟨v3, hv3⟩ := h3
    obtain ⟨v4, hv4⟩ := h4
    obtain ⟨v5, hv5⟩ := h5
    have hstep : fetch_and_parse_user_details hp payload uid
        = parse_user_details_from_json hp (Json.obj kvs) uid := by
      unfold fetch_and_parse_user_details
      rw [if_neg hne, hj]
    rw [hstep]
    simp only [parse_user_details_from_json]
    rw [hv1, hv2, hv3, hv4, hv5]
    exact ⟨_, rfl⟩

/-- Witness for `c1_format_detection_amended`: an HTML payload is routed to
the HTML-form mapping, and a well-typed JSON object payload is parsed by the
JSON-form mapping without raising. -/
theorem c1_witness :
    fetch_and_parse_user_details (fun _ => Html.elem "html" [] []) "<div>x</div>" "9"
      = Except.ok (parse_user_details_from_popup_html
          (fun _ => Html.elem "html" [] []) "<div>x</div>" "9") ∧
    (∃ d, fetch_and_parse_user_details (fun _ => Html.elem "html" [] [])
        "\x7b\"name\": \"dana\", \"genderId\": 2\x7d" "9" = Except.ok d) :=
  ⟨(c1_format_detection_amended (fun _ => Html.elem "html" [] []) "<div>x</div>" "9"
      (by decide)).2.1 rfl,
   (c1_format_detection_amended (fun _ => Html.elem "html" [] [])
      "\x7b\"name\": \"dana\", \"genderId\": 2\x7d" "9" (by decide)).2.2
     [("name", Json.str "dana"), ("genderId", Json.num 2)] rfl
     ⟨none, rfl⟩ ⟨none, rfl⟩ ⟨none, rfl⟩ ⟨none, rfl⟩ ⟨none, rfl⟩⟩

/-- Witness for `c3_dedup_gate`: a seen identifier is never detail-fetched. -/
theorem c3_witness :
    Ev.fetchDetail "5" ∉
      (main_loop (fun _ => {}) (fun _ => none) ["5"]
        [{ user_id := "5", nickname_listing := none,
           photo_url_listing := some "http://h/p.ashx", gender_listing := none,
           age_listing := none, location_listing := none }]).log :=
  fun hmem =>
    (c3_dedup_gate (fun _ => {}) (fun _ => none) ["5"]
        [{ user_id := "5", nickname_listing := none,
           photo_url_listing := some "http://h/p.ashx", gender_listing := none,
           age_listing := none, location_listing := none }] "5").1
      (by decide) _ hmem rfl

/-! ## Claim C10: listing-extractor invariants -/

theorem all_takeWhile (p : Char → Bool) (l : List Char) :
    (l.takeWhile p).all p = true := by
  induction l with
  | nil => rfl
  | cons a t ih =>
    rw [List.takeWhile_cons]
    by_cases hp : p a = true
    · rw [if_pos hp]
      simp [hp, ih]
    · rw [if_neg hp]
      rfl

theorem showProfilAt_digits {cs ds : List Char} (h : showProfilAt cs = some ds) :
    ds ≠ [] ∧ ds.all Char.isDigit = true := by
  unfold showProfilAt at h
  by_cases h1 : "showProfil(".data.isPrefixOf cs = true
  · rw [if_pos h1] at h
    by_cases h2 : ((cs.drop "showProfil(".length).takeWhile Char.isDigit).isEmpty = true
    · rw [if_pos h2] at h
      simp at h
    · rw [if_neg h2] at h
      by_cases h3 : ((cs.drop "showProfil(".length).dropWhile Char.isDigit).head? = some ')'
      · rw [if_pos h3] at h
        have hds : (cs.drop "showProfil(".length).takeWhile Char.isDigit = ds := by
          simpa using h
        rw [← hds]
        refine ⟨?_, all_takeWhile _ _⟩
        intro hh
        rw [hh] at h2
        exact h2 rfl
      · rw [if_neg h3] at h
        simp at h
  · rw [if_neg h1] at h
    simp at h

theorem searchShowProfilChars_digits : ∀ {cs ds : List Char},
    searchShowProfilChars cs = some ds → ds ≠ [] ∧ ds.all Char.isDigit = true
  | [], ds, h => by simp [searchShowProfilChars] at h
  | c :: cs, ds, h => by
    rw [searchShowProfilChars] at h
    rcases hfst : showProfilAt (c :: cs) with _ | x
    · rw [hfst] at h
      have h' : searchShowProfilChars cs = some ds := h
      exact searchShowProfilChars_digits h'
    · rw [hfst] at h
      have hx : x = ds := by simpa using h
      exact hx ▸ showProfilAt_digits hfst

theorem searchShowProfil_digits {s d : String} (h : searchShowProfil s = some d) :
    d ≠ "" ∧ d.data.all Char.isDigit = true := by
  unfold searchShowProfil at h
  rcases hc : searchShowProfilChars s.data with _ | ds
  · rw [hc] at h
    simp at h
  · rw [hc] at h
    have hd : (⟨ds⟩ : String) = d := by simpa using h
    obtain ⟨h1, h2⟩ := searchShowProfilChars_digits hc
    rw [← hd]
    exact ⟨fun hh => h1 (congrArg String.data hh), h2⟩

theorem extract_user_id_digits {c : Html} {uid : String}
    (h : extract_user_id c = some uid) : uid ≠ "" ∧ uid.data.all Char.isDigit = true := by
  unfold extract_user_id at h
  rcases hown : extract_user_id_own c with _ | u
  · rw [hown] at h
    have h' : extract_user_id_fallback c = some uid := h
    unfold extract_user_id_fallback at h'
    rcases Option.bind_eq_some.1 h' with ⟨e, _, he⟩
    rcases Option.bind_eq_some.1 he with ⟨oc, _, hoc⟩
    exact searchShowProfil_digits hoc
  · rw [hown] at h
    have hu : u = uid := by simpa using h
    subst hu
    unfold extract_user_id_own at hown
    rcases Option.bind_eq_some.1 hown with ⟨oc, _, hoc⟩
    by_cases hemp : oc = ""
    · rw [if_pos hemp] at hoc
      simp at hoc
    · rw [if_neg hemp] at hoc
      exact searchShowProfil_digits hoc

/-- Photo resolution with no image element falls back to the template. -/
theorem listing_photo_url_none (c : Html) (uid : String)
    (h : find_listing_img c = none) :
    listing_photo_url c uid = synthesized_photo_url uid := by
  unfold listing_photo_url
  rw [h]

/-- Photo resolution with an image lacking a `src` attribute falls back to
the template. -/
theorem listing_photo_url_no_src (c : Html) (uid : String) (img : Html)
    (h1 : find_listing_img c = some img) (h2 : img.attr? "src" = none) :
    listing_photo_url c uid = synthesized_photo_url uid := by
  unfold listing_photo_url
  rw [h1]
  show (match img.attr? "src" with
    | some src => listing_photo_from_src uid src
    | none => synthesized_photo_url uid) = synthesized_photo_url uid
  rw [h2]

/-- Photo resolution with an image carrying a `src` attribute reduces to the
`src`-dependent resolver. -/
theorem listing_photo_url_src (c : Html) (uid : String) (img : Html)
    (src : String)
    (h1 : find_listing_img c = some img) (h2 : img.attr? "src" = some src) :
    listing_photo_url c uid = listing_photo_from_src uid src := by
  unfold listing_photo_url
  rw [h1]
  show (match img.attr? "src" with
    | some s => listing_photo_from_src uid s
    | none => synthesized_photo_url uid) = listing_photo_from_src uid src
  rw [h2]

/-- **C10.**  Invariants of the listing extractor: (1) every emitted summary
has a non-empty all-digit identifier and a present photo reference; (2) a
container from which no identifier can be extracted is omitted rather than
emitted; (3) when an identifier is found but no usable explicit image
reference exists — no image element at all, an image without a `src`
attribute, an image with an empty (falsy) `src`, or a `src` that carries a
`customerId` parameter different from the extracted identifier — the photo
URL is synthesized from the fixed `picture.ashx?customerId=<id>&number=1`
template. -/
theorem c10_listing_invariants :
    (∀ (doc : Html), ∀ s ∈ (parse_users_from_listing doc).1,
      s.user_id ≠ "" ∧ s.user_id.data.all Char.isDigit = true ∧
        s.photo_url_listing ≠ none) ∧
    (∀ ch : Html, extract_user_id ch = none → extract_summary ch = none) ∧
    (∀ (ch : Html) (uid : String), extract_user_id ch = some uid →
      (find_listing_img ch = none ∨
       ∃ img, find_listing_img ch = some img ∧
         (img.attr? "src" = none ∨ img.attr? "src" = some "" ∨
          ∃ src, img.attr? "src" = some src ∧
            strContains src ("customerId=" ++ uid) = false ∧
            strContains src "customerId=" = true)) →
      ∃ s, extract_summary ch = some s ∧
        s.photo_url_listing = some (synthesized_photo_url uid)) := by
  refine ⟨?_, ?_, ?_⟩
  · intro doc s hs
    have hs' : s ∈ (adv_containers doc).filterMap extract_summary := hs
    rcases List.mem_filterMap.1 hs' with ⟨ch, _, hcs⟩
    unfold extract_summary at hcs
    rcases Option.map_eq_some'.1 hcs with ⟨uid, huid, hsum⟩
    obtain ⟨h1, h2⟩ := extract_user_id_digits huid
    rw [← hsum]
    exact ⟨h1, h2, by simp [summary_of]⟩
  · intro ch h
    unfold extract_summary
    rw [h]
    rfl
  · intro ch uid huid hcase
    refine ⟨summary_of ch uid, ?_, ?_⟩
    · unfold extract_summary
      rw [huid]
      rfl
    · show some (listing_photo_url ch uid) = some (synthesized_photo_url uid)
      rcases hcase with himg | ⟨img, himg, hnos | hemp | ⟨src, hsrc, hno, hhas⟩⟩
      · rw [listing_photo_url_none ch uid himg]
      · rw [listing_photo_url_no_src ch uid img himg hnos]
      · rw [listing_photo_url_src ch uid img "" himg hemp]
        simp [listing_photo_from_src]
      · rw [listing_photo_url_src ch uid img src himg hsrc]
        have hne : ¬ src = "" := by
          intro h
          rw [h] at hhas
          exact absurd hhas (by decide)
        simp [listing_photo_from_src, hne, hno, hhas]

/-- Witness for `c10_listing_invariants`: a container with a `showProfil`
trigger whose image source carries a different `customerId` yields a summary
with the synthesized photo URL. -/
theorem c10_witness :
    ∃ s, extract_summary
        (Html.elem "div" [("class", "adv"), ("onclick", "showProfil(42)")]
          [Html.elem "img"
            [("id", "imgCustomer_42"),
             ("src", "/Pic/picture.ashx?customerId=77&number=1")] []])
      = some s ∧
      s.photo_url_listing = some (synthesized_photo_url "42") :=
  c10_listing_invariants.2.2
    (Html.elem "div" [("class", "adv"), ("onclick", "showProfil(42)")]
      [Html.elem "img"
        [("id", "imgCustomer_42"),
         ("src", "/Pic/picture.ashx?customerId=77&number=1")] []])
    "42" (by decide)
    (Or.inr ⟨Html.elem "img"
        [("id", "imgCustomer_42"),
         ("src", "/Pic/picture.ashx?customerId=77&number=1")] [],
      rfl,
      Or.inr (Or.inr ⟨"/Pic/picture.ashx?customerId=77&number=1",
        rfl, by decide, by decide⟩)⟩)

end Zbeng
